import Mathlib

/-!
Health simulator: the state-update core of `src/project.cpp`.

A shallow embedding of the class `HealthSimulator` and of the properties its
specification states about it.

Modelling conventions.

* The C++ `int` fields (`day`, the three levels, the counts) are integers (`Int`).
  The increments `day++` and `activityCounts[..]++` wrap around at 32 bits
  (`intIncr`, `wrapInt`): at `INT_MAX = 2147483647` they yield `-2147483648`.
  The three levels stay inside `[0,100]` and every delta is at most 30 in absolute
  value, so their arithmetic never leaves the range of `int` and is written without
  a wrap.
* `std::map<std::string, int>` is its in-order sequence of entries: a list of
  pairs with strictly ascending keys (`CountsWF`).  `std::string` comparison is
  the lexicographic order of `String`.
* The pseudo-random draw `dist_event(rng)` is the explicit argument `eventIndex`
  of `newDay`; `events[eventIndex]` is an `Option` lookup.
* `std::cout` output is the string a report function returns.
* `mainTurn` is one pass through the body of the loop of `main`, entered once
  `std::cin >> choice` has delivered an integer.
-/

namespace HealthSim

/-! ## Data model -/

/-- The data members of `class HealthSimulator` (the generator and the constant
event table apart). -/
structure HealthSimulator where
  day : Int
  energyLevel : Int
  happinessLevel : Int
  stressLevel : Int
  message : String
  activityCounts : List (String × Int)
deriving DecidableEq, Repr

/-- One row of the event table: `struct DailyEvent`.  The effect mutates the
simulator and returns the description of the event. -/
structure DailyEvent where
  name : String
  effect : HealthSimulator → HealthSimulator × String

/-- `int clamp(int value)`: `std::max(0, std::min(100, value))`. -/
def clamp (value : Int) : Int := max 0 (min 100 value)

/-- The value an `int` holds after an arithmetic result `v`: 32-bit two's complement
wrap-around, the identity on `-2147483648 .. 2147483647`. -/
def wrapInt (v : Int) : Int := (v + 2147483648) % 4294967296 - 2147483648

/-- The increment `++` of an `int`. -/
def intIncr (v : Int) : Int := wrapInt (v + 1)

/-! ## The counts map -/

/-- `std::string::operator<` is the lexicographic comparison of the two character
sequences; this instance decides it by structural recursion on them. -/
instance keyLtDecidable (a b : String) : Decidable (a < b) :=
  decidable_of_iff (a.data < b.data) String.lt_iff_toList_lt.symm

/-- `activityCounts[key]++` on the in-order entry list: `operator[]` finds the
entry or inserts one with the value-initialised count `0` at its sorted position,
and the count is then incremented. -/
def countsIncr (key : String) : List (String × Int) → List (String × Int)
  | [] => [(key, intIncr 0)]
  | (k, v) :: rest =>
    if key < k then (key, intIncr 0) :: (k, v) :: rest
    else if key = k then (k, intIncr v) :: rest
    else (k, v) :: countsIncr key rest

/-- The representation invariant of `std::map`: keys strictly ascending. -/
def CountsWF (m : List (String × Int)) : Prop :=
  m.Pairwise (fun a b => a.1 < b.1)

/-- `activityCounts.find(key)`: the count stored under `key`, if there is an entry. -/
def countsFind (key : String) : List (String × Int) → Option Int
  | [] => none
  | (k, v) :: rest => if key = k then some v else countsFind key rest

/-! ## Event effects -/

def unexpectedWorkloadEffect (sim : HealthSimulator) : HealthSimulator × String :=
  let sim := { sim with stressLevel := clamp (sim.stressLevel + 20) }
  let sim := { sim with energyLevel := clamp (sim.energyLevel - 15) }
  (sim, "Unexpected workload hit! Stress and energy took a dip.")

def goodNewsEffect (sim : HealthSimulator) : HealthSimulator × String :=
  let sim := { sim with happinessLevel := clamp (sim.happinessLevel + 25) }
  let sim := { sim with stressLevel := clamp (sim.stressLevel - 5) }
  (sim, "Received some good news! Feeling much happier.")

def minorIssueEffect (sim : HealthSimulator) : HealthSimulator × String :=
  let sim := { sim with stressLevel := clamp (sim.stressLevel + 10) }
  (sim, "A minor issue popped up. Feeling a bit more stressed.")

def relaxingEveningEffect (sim : HealthSimulator) : HealthSimulator × String :=
  let sim := { sim with stressLevel := clamp (sim.stressLevel - 15) }
  let sim := { sim with happinessLevel := clamp (sim.happinessLevel + 10) }
  (sim, "Had a relaxing evening. Stress eased off.")

def badSleepEffect (sim : HealthSimulator) : HealthSimulator × String :=
  let sim := { sim with energyLevel := clamp (sim.energyLevel - 20) }
  let sim := { sim with happinessLevel := clamp (sim.happinessLevel - 10) }
  (sim, "Slept poorly. Energy and mood are low.")

def noMajorEventEffect (sim : HealthSimulator) : HealthSimulator × String :=
  (sim, "A calm day. Nothing major happened.")

/-- The table `events` built by the constructor. -/
def events : List DailyEvent :=
  [ ⟨"Unexpected Workload", unexpectedWorkloadEffect⟩,
    ⟨"Good News", goodNewsEffect⟩,
    ⟨"Minor Issue", minorIssueEffect⟩,
    ⟨"Relaxing Evening", relaxingEveningEffect⟩,
    ⟨"Bad Sleep", badSleepEffect⟩,
    ⟨"No Major Event", noMajorEventEffect⟩ ]

/-- Lower bound of `dist_event`. -/
def distEventMin : Nat := 0

/-- Upper bound of `dist_event`: `events.size() - 1`. -/
def distEventMax : Nat := events.length - 1

/-! ## Operations -/

/-- The constructor `HealthSimulator()`. -/
def construct : HealthSimulator :=
  { day := 1, energyLevel := 70, happinessLevel := 60, stressLevel := 40,
    message := "Welcome to your Health Simulator! Manage your well-being.",
    activityCounts := [] }

def exercise (s : HealthSimulator) : HealthSimulator :=
  let s := { s with energyLevel := clamp (s.energyLevel + 15) }
  let s := { s with happinessLevel := clamp (s.happinessLevel + 10) }
  let s := { s with stressLevel := clamp (s.stressLevel - 10) }
  let s := { s with message := "You exercised! Feeling more energetic and happy." }
  { s with activityCounts := countsIncr "Exercise" s.activityCounts }

def meditate (s : HealthSimulator) : HealthSimulator :=
  let s := { s with stressLevel := clamp (s.stressLevel - 20) }
  let s := { s with happinessLevel := clamp (s.happinessLevel + 5) }
  let s := { s with message := "You meditated. A wave of calm washes over you." }
  { s with activityCounts := countsIncr "Meditate" s.activityCounts }

def eatHealthy (s : HealthSimulator) : HealthSimulator :=
  let s := { s with energyLevel := clamp (s.energyLevel + 10) }
  let s := { s with happinessLevel := clamp (s.happinessLevel + 5) }
  let s := { s with message := "You ate a healthy meal. Feeling nourished." }
  { s with activityCounts := countsIncr "Eat Healthy" s.activityCounts }

def relax (s : HealthSimulator) : HealthSimulator :=
  let s := { s with stressLevel := clamp (s.stressLevel - 15) }
  let s := { s with energyLevel := clamp (s.energyLevel + 5) }
  let s := { s with message := "You took time to relax. Stress levels are dropping." }
  { s with activityCounts := countsIncr "Relax" s.activityCounts }

def sleep (s : HealthSimulator) : HealthSimulator :=
  let s := { s with energyLevel := clamp (s.energyLevel + 30) }
  let s := { s with happinessLevel := clamp (s.happinessLevel + 5) }
  let s := { s with stressLevel := clamp (s.stressLevel - 10) }
  let s := { s with message := "You got good sleep. Ready for a new day!" }
  { s with activityCounts := countsIncr "Sleep" s.activityCounts }

/-- `void newDay()`, with the draw `dist_event(rng)` passed as `eventIndex`.
The result is `none` exactly when `events[eventIndex]` is out of range. -/
def newDay (s : HealthSimulator) (eventIndex : Nat) : Option HealthSimulator :=
  let s := { s with day := intIncr s.day }
  match events[eventIndex]? with
  | none => none
  | some ev =>
    let r := ev.effect s
    let s := r.1
    let eventMessage := r.2
    let s := if s.stressLevel > 70 then
      { s with happinessLevel := clamp (s.happinessLevel - 5) } else s
    let s := if s.energyLevel < 30 then
      { s with stressLevel := clamp (s.stressLevel + 5) } else s
    let s := if s.happinessLevel < 40 then
      { s with energyLevel := clamp (s.energyLevel - 5) } else s
    some { s with message := "Day " ++ toString s.day ++ ": " ++ eventMessage }

def reset (s : HealthSimulator) : HealthSimulator :=
  let s := { s with day := 1 }
  let s := { s with energyLevel := 70 }
  let s := { s with happinessLevel := 60 }
  let s := { s with stressLevel := 40 }
  let s := { s with message := "Simulator reset! Starting a new health journey." }
  { s with activityCounts := [] }

/-! ## Reports -/

/-- `std::left << std::setw(w) << str`: pad on the right with blanks up to `w` bytes. -/
def leftSetw (w : Nat) (str : String) : String :=
  str ++ String.mk (List.replicate (w - str.utf8ByteSize) ' ')

/-- The local variables of `displayActivityStats` while its loop runs, with the
text printed so far. -/
structure StatsLoop where
  out : String
  mostFrequentActivity : String
  maxCount : Int
deriving DecidableEq, Repr

/-- One iteration of the `for (const auto& pair : activityCounts)` loop. -/
def statsLoopBody (st : StatsLoop) (pair : String × Int) : StatsLoop :=
  let st := { st with
    out := st.out ++ (leftSetw 15 pair.1 ++ ": " ++ toString pair.2 ++ " times\n") }
  if pair.2 > st.maxCount then
    { st with maxCount := pair.2, mostFrequentActivity := pair.1 }
  else st

/-- `void displayActivityStats() const`: the text it prints. -/
def displayActivityStats (s : HealthSimulator) : String :=
  let out := "\n--- Activity Log ---\n"
  let out :=
    if s.activityCounts.isEmpty then
      out ++ "No activities recorded yet.\n"
    else
      let st := s.activityCounts.foldl statsLoopBody ⟨out, "None", 0⟩
      st.out ++ "--------------------\n" ++
        ("Most frequent activity: " ++ st.mostFrequentActivity ++
          " (" ++ toString st.maxCount ++ " times)\n")
  out ++ "--------------------\n"


/-! ## The menu loop -/

/-- `void displayStats() const`: the text it prints. -/
def displayStats (s : HealthSimulator) : String :=
  "\n======================================\n" ++
  "           Health Simulator\n" ++
  "======================================\n" ++
  ("Day: " ++ toString s.day ++ "\n") ++
  (leftSetw 12 "Energy:" ++ toString s.energyLevel ++ "/100\n") ++
  (leftSetw 12 "Happiness:" ++ toString s.happinessLevel ++ "/100\n") ++
  (leftSetw 12 "Stress:" ++ toString s.stressLevel ++ "/100\n") ++
  ("\nMessage: " ++ s.message ++ "\n") ++
  "--------------------------------------\n"

/-- The menu and the prompt `main` prints in every turn. -/
def menuText : String :=
  "\nChoose an action:\n" ++
  "1. Exercise (Boosts Energy, Happiness; Reduces Stress)\n" ++
  "2. Meditate (Reduces Stress; Boosts Happiness)\n" ++
  "3. Eat Healthy (Boosts Energy, Happiness)\n" ++
  "4. Relax (Reduces Stress; Boosts Energy)\n" ++
  "5. Sleep (Major Energy Recovery; Reduces Stress)\n" ++
  "6. Advance to New Day (Experience daily events and changes)\n" ++
  "7. View Activity Stats (See what you've done most)\n" ++
  "8. Reset Simulator (Start Fresh)\n" ++
  "9. Exit Game\n" ++
  "Enter your choice: "

/-- What one turn of the `do ... while (choice != 9)` loop of `main` leaves: the
simulator, the text printed, and whether the loop goes on. -/
structure TurnResult where
  sim : HealthSimulator
  out : String
  continues : Bool
deriving DecidableEq, Repr

/-- One turn of the loop of `main`, from the point where `std::cin >> choice` has read
the integer `choice` (the re-prompt on non-numeric input happens before it).
`eventIndex` is the draw a day-advance makes. -/
def mainTurn (sim : HealthSimulator) (choice : Int) (eventIndex : Nat) : Option TurnResult :=
  let out := displayStats sim ++ menuText
  let r : Option (HealthSimulator × String) :=
    if choice = 1 then some (exercise sim, out)
    else if choice = 2 then some (meditate sim, out)
    else if choice = 3 then some (eatHealthy sim, out)
    else if choice = 4 then some (relax sim, out)
    else if choice = 5 then some (sleep sim, out)
    else if choice = 6 then (newDay sim eventIndex).map (fun sim' => (sim', out))
    else if choice = 7 then some (sim, out ++ displayActivityStats sim)
    else if choice = 8 then some (reset sim, out)
    else if choice = 9 then some (sim, out ++ "Exiting Health Simulator. Goodbye!\n")
    else some (sim, out ++ "Invalid choice. Please select a number from the menu.\n")
  r.map (fun p => { sim := p.1, out := p.2 ++ "\n", continues := decide (choice ≠ 9) })

/-! ## Sequences of operations -/

/-- The five activities of the menu. -/
inductive Activity where
  | exercise | meditate | eatHealthy | relax | sleep
deriving DecidableEq, Repr

/-- The member function an activity stands for. -/
def Activity.perform : Activity → HealthSimulator → HealthSimulator
  | .exercise => HealthSim.exercise
  | .meditate => HealthSim.meditate
  | .eatHealthy => HealthSim.eatHealthy
  | .relax => HealthSim.relax
  | .sleep => HealthSim.sleep

/-- The key under which the member function counts itself in `activityCounts`. -/
def Activity.key : Activity → String
  | .exercise => "Exercise"
  | .meditate => "Meditate"
  | .eatHealthy => "Eat Healthy"
  | .relax => "Relax"
  | .sleep => "Sleep"

/-- A mutating call on the simulator; `newDay` carries the event index drawn. -/
inductive Op where
  | activity (a : Activity)
  | newDay (eventIndex : Nat)
  | reset
deriving DecidableEq, Repr

def Op.apply : Op → HealthSimulator → Option HealthSimulator
  | .activity a, s => some (a.perform s)
  | .newDay eventIndex, s => HealthSim.newDay s eventIndex
  | .reset, s => some (HealthSim.reset s)

/-- The event index of a day-advance is one of `0..5`. -/
def Op.IndexOk : Op → Prop
  | .newDay eventIndex => eventIndex ≤ 5
  | _ => True

instance (op : Op) : Decidable op.IndexOk := by
  cases op <;> unfold Op.IndexOk <;> infer_instance

/-- Run a sequence of calls, first call first. -/
def runOps : List Op → HealthSimulator → Option HealthSimulator
  | [], s => some s
  | op :: ops, s => (op.apply s).bind (runOps ops)

/-! ## Vocabulary of the specification -/

/-- Every metric lies in `[0,100]`. -/
def InRange (s : HealthSimulator) : Prop :=
  (0 ≤ s.energyLevel ∧ s.energyLevel ≤ 100) ∧
  (0 ≤ s.happinessLevel ∧ s.happinessLevel ≤ 100) ∧
  (0 ≤ s.stressLevel ∧ s.stressLevel ≤ 100)

instance (s : HealthSimulator) : Decidable (InRange s) := by
  unfold InRange; infer_instance

/-- A state on the boundary of the range: energy 100, happiness 0, stress 0. -/
def boundaryState : HealthSimulator :=
  { construct with energyLevel := 100, happinessLevel := 0, stressLevel := 0 }

/-- A state near the boundary: energy 95, happiness 100, stress 5. -/
def nearBoundaryState : HealthSimulator :=
  { construct with energyLevel := 95, happinessLevel := 100, stressLevel := 5 }

/-- The state of the specification's rule-ordering example: energy 25, happiness 35,
stress 75. -/
def ruleOrderState : HealthSimulator :=
  { construct with energyLevel := 25, happinessLevel := 35, stressLevel := 75 }

/-- The lines the activity report prints for the entries, in map order. -/
def activityLines : List (String × Int) → String
  | [] => ""
  | pair :: rest =>
    (leftSetw 15 pair.1 ++ ": " ++ toString pair.2 ++ " times\n") ++ activityLines rest

/-- The text of an activity report that lists the entries and then names `name` as
most frequent with count `cnt`. -/
def reportNaming (s : HealthSimulator) (name : String) (cnt : Int) : String :=
  "\n--- Activity Log ---\n" ++ activityLines s.activityCounts ++ "--------------------\n" ++
    ("Most frequent activity: " ++ name ++ " (" ++ toString cnt ++ " times)\n") ++
    "--------------------\n"

/-- The activity report names as most frequent the first name, in ascending name order,
whose count equals the maximum count in the map, and reports that maximum as its count. -/
def ReportsFirstMax (s : HealthSimulator) : Prop :=
  ∃ name cnt, (name, cnt) ∈ s.activityCounts ∧
    (∀ p ∈ s.activityCounts, p.2 ≤ cnt) ∧
    (∀ p ∈ s.activityCounts, p.2 = cnt → name ≤ p.1) ∧
    displayActivityStats s = reportNaming s name cnt

/-- The calls that bring `day` to INT_MAX: 2147483646 day-advances. -/
def maxDayOps : List Op := List.replicate 2147483646 (Op.newDay 5)

/-- The calls that overflow `day`: 2147483647 day-advances. -/
def overflowDayOps : List Op := List.replicate 2147483647 (Op.newDay 5)

/-- The calls that overflow the count of Exercise: 2^31 = 2147483648 calls of it. -/
def overflowExerciseOps : List Op :=
  List.replicate 2147483648 (Op.activity Activity.exercise)

/-- A row of deltas of a table of the specification: energy, happiness, stress. -/
structure Delta where
  energy : Int
  happiness : Int
  stress : Int
deriving DecidableEq, Repr

/-- The activity table of the specification (section 4.1). -/
def activityTable : Activity → Delta
  | .exercise => ⟨15, 10, -10⟩
  | .meditate => ⟨0, 5, -20⟩
  | .eatHealthy => ⟨10, 5, 0⟩
  | .relax => ⟨5, 0, -15⟩
  | .sleep => ⟨30, 5, -10⟩

/-- The event table of the specification (section 4.2), in the order of `events`. -/
def eventTable : List (String × Delta) :=
  [ ("Unexpected Workload", ⟨-15, 0, 20⟩),
    ("Good News", ⟨0, 25, -5⟩),
    ("Minor Issue", ⟨0, 0, 10⟩),
    ("Relaxing Evening", ⟨0, 10, -15⟩),
    ("Bad Sleep", ⟨-20, -10, 0⟩),
    ("No Major Event", ⟨0, 0, 0⟩) ]

/-- The specification's reading of a table row: every metric becomes
`clamp (old + delta)`. -/
def applyDelta (d : Delta) (s : HealthSimulator) : HealthSimulator :=
  { s with
    energyLevel := clamp (s.energyLevel + d.energy)
    happinessLevel := clamp (s.happinessLevel + d.happiness)
    stressLevel := clamp (s.stressLevel + d.stress) }

/-- Step "day := day + 1" of a day-advance, as the specification words it, on the
`int` field `day`. -/
def specIncDay (s : HealthSimulator) : HealthSimulator :=
  { s with day := intIncr s.day }

/-- Secondary rule 1 of the specification: if stress > 70 then happiness −= 5, clamped. -/
def specRule1 (s : HealthSimulator) : HealthSimulator :=
  if s.stressLevel > 70 then { s with happinessLevel := clamp (s.happinessLevel - 5) } else s

/-- Secondary rule 2 of the specification: if energy < 30 then stress += 5, clamped. -/
def specRule2 (s : HealthSimulator) : HealthSimulator :=
  if s.energyLevel < 30 then { s with stressLevel := clamp (s.stressLevel + 5) } else s

/-- Secondary rule 3 of the specification: if happiness < 40 then energy −= 5, clamped. -/
def specRule3 (s : HealthSimulator) : HealthSimulator :=
  if s.happinessLevel < 40 then { s with energyLevel := clamp (s.energyLevel - 5) } else s


/-- The description each effect function returns, by index of `events`. -/
def eventDescriptions : List String :=
  [ "Unexpected workload hit! Stress and energy took a dip.",
    "Received some good news! Feeling much happier.",
    "A minor issue popped up. Feeling a bit more stressed.",
    "Had a relaxing evening. Stress eased off.",
    "Slept poorly. Energy and mood are low.",
    "A calm day. Nothing major happened." ]

/-- The calls made since the most recent reset (all of them if there was none). -/
def sinceLastReset (ops : List Op) : List Op :=
  (ops.reverse.takeWhile (fun op => decide (op ≠ Op.reset))).reverse

/-- The number of day-advances in a sequence of calls. -/
def dayAdvances (ops : List Op) : Nat :=
  ops.countP (fun op => match op with
    | .newDay _ => true
    | _ => false)


/-- The state of the rule-gating example: energy 20, happiness 60, stress 68. -/
def gateState : HealthSimulator :=
  { construct with energyLevel := 20, happinessLevel := 60, stressLevel := 68 }

/-- A state with happiness at the lower bound: energy 50, happiness 0, stress 75. -/
def zeroHappinessState : HealthSimulator :=
  { construct with energyLevel := 50, happinessLevel := 0, stressLevel := 75 }


/-- The five names under which the activities count themselves. -/
def activityKeys : List String :=
  ["Exercise", "Meditate", "Eat Healthy", "Relax", "Sleep"]

/-! ## Basic facts about `clamp` and the event table -/

theorem clamp_bounds (v : Int) : 0 ≤ clamp v ∧ clamp v ≤ 100 := by
  unfold clamp; omega

theorem clamp_of_bounds (v : Int) (h0 : 0 ≤ v) (h1 : v ≤ 100) : clamp v = v := by
  unfold clamp; omega

/-- The six rows of `events`, by index. -/
theorem events_index (i : Nat) (hi : i ≤ 5) :
    (i = 0 ∧ events[i]? = some ⟨"Unexpected Workload", unexpectedWorkloadEffect⟩) ∨
    (i = 1 ∧ events[i]? = some ⟨"Good News", goodNewsEffect⟩) ∨
    (i = 2 ∧ events[i]? = some ⟨"Minor Issue", minorIssueEffect⟩) ∨
    (i = 3 ∧ events[i]? = some ⟨"Relaxing Evening", relaxingEveningEffect⟩) ∨
    (i = 4 ∧ events[i]? = some ⟨"Bad Sleep", badSleepEffect⟩) ∨
    (i = 5 ∧ events[i]? = some ⟨"No Major Event", noMajorEventEffect⟩) := by
  interval_cases i <;> simp [events]

/-! ## Basic facts about `int` arithmetic and the day counter -/

theorem wrapInt_of_range (v : Int) (h0 : -2147483648 ≤ v) (h1 : v ≤ 2147483647) :
    wrapInt v = v := by
  unfold wrapInt; omega

theorem wrapInt_bounds (v : Int) : -2147483648 ≤ wrapInt v ∧ wrapInt v ≤ 2147483647 := by
  unfold wrapInt; omega

theorem intIncr_of_lt (v : Int) (h0 : -2147483648 ≤ v) (h1 : v < 2147483647) :
    intIncr v = v + 1 := by
  unfold intIncr wrapInt; omega

theorem intIncr_wrapInt (v : Int) : intIncr (wrapInt v) = wrapInt (v + 1) := by
  unfold intIncr wrapInt; omega

theorem intIncr_zero : intIncr 0 = 1 := by decide

theorem intIncr_max : intIncr 2147483647 = -2147483648 := by decide

theorem newDay_day (s : HealthSimulator) (i : Nat) (hi : i ≤ 5) :
    ∃ s', newDay s i = some s' ∧ s'.day = intIncr s.day := by
  rcases events_index i hi with ⟨_, he⟩ | ⟨_, he⟩ | ⟨_, he⟩ | ⟨_, he⟩ | ⟨_, he⟩ | ⟨_, he⟩ <;>
    simp only [newDay, he, unexpectedWorkloadEffect, goodNewsEffect, minorIssueEffect,
      relaxingEveningEffect, badSleepEffect, noMajorEventEffect] <;>
    refine ⟨_, rfl, ?_⟩ <;>
    split_ifs <;> rfl

/-! ## The metrics stay in range -/

theorem perform_inRange (a : Activity) (s : HealthSimulator) (h : InRange s) :
    InRange (a.perform s) := by
  obtain ⟨⟨e0, e1⟩, ⟨h0, h1⟩, ⟨s0, s1⟩⟩ := h
  cases a <;>
    simp only [Activity.perform, exercise, meditate, eatHealthy, relax, sleep, InRange] <;>
    refine ⟨?_, ?_, ?_⟩ <;> first | exact clamp_bounds _ | exact ⟨by assumption, by assumption⟩

theorem newDay_inRange (s : HealthSimulator) (i : Nat) (hi : i ≤ 5) (h : InRange s) :
    ∃ s', newDay s i = some s' ∧ InRange s' := by
  obtain ⟨⟨e0, e1⟩, ⟨h0, h1⟩, ⟨s0, s1⟩⟩ := h
  rcases events_index i hi with ⟨_, he⟩ | ⟨_, he⟩ | ⟨_, he⟩ | ⟨_, he⟩ | ⟨_, he⟩ | ⟨_, he⟩ <;>
    simp only [newDay, he, unexpectedWorkloadEffect, goodNewsEffect, minorIssueEffect,
      relaxingEveningEffect, badSleepEffect, noMajorEventEffect] <;>
    refine ⟨_, rfl, ?_⟩ <;>
    simp only [InRange] <;>
    split_ifs <;>
    refine ⟨?_, ?_, ?_⟩ <;>
    first | exact clamp_bounds _ | exact ⟨by assumption, by assumption⟩

theorem reset_inRange (s : HealthSimulator) : InRange (reset s) := by
  simp [reset, InRange]

theorem apply_inRange (op : Op) (s : HealthSimulator) (hop : op.IndexOk) (h : InRange s) :
    ∃ s', op.apply s = some s' ∧ InRange s' := by
  cases op with
  | activity a => exact ⟨_, rfl, perform_inRange a s h⟩
  | newDay i => exact newDay_inRange s i hop h
  | reset => exact ⟨_, rfl, reset_inRange s⟩

theorem runOps_inRange (ops : List Op) (s : HealthSimulator)
    (hops : ∀ op ∈ ops, op.IndexOk) (h : InRange s) :
    ∃ s', runOps ops s = some s' ∧ InRange s' := by
  induction ops generalizing s with
  | nil => exact ⟨s, rfl, h⟩
  | cons op ops ih =>
    obtain ⟨s1, h1, hr1⟩ := apply_inRange op s (hops op (List.mem_cons_self _ _)) h
    obtain ⟨s2, h2, hr2⟩ := ih s1 (fun o ho => hops o (List.mem_cons_of_mem _ ho)) hr1
    exact ⟨s2, by simp [runOps, h1, h2], hr2⟩

/-- C1: every sequence of the operations exercise, meditate, eatHealthy, relax, sleep,
reset and newDay (with an event index in 0..5) runs to completion from the freshly
constructed state, and in the state it reaches energy, happiness and stress are each
in [0,100].  Every prefix of a sequence is a sequence, so this covers every step. -/
theorem reachable_metrics_in_range (ops : List Op) (hops : ∀ op ∈ ops, op.IndexOk) :
    ∃ s, runOps ops construct = some s ∧ InRange s :=
  runOps_inRange ops construct hops (by decide)

theorem reachable_metrics_in_range_witness :
    (∀ op ∈ [Op.activity .sleep, Op.newDay 0, Op.newDay 4, Op.reset, Op.activity .relax],
        op.IndexOk) ∧
      ∃ s, runOps [Op.activity .sleep, Op.newDay 0, Op.newDay 4, Op.reset,
        Op.activity .relax] construct = some s ∧ InRange s :=
  ⟨by decide, reachable_metrics_in_range _ (by decide)⟩

/-! ## Activities -/

/-- C2: from every state whose energy, happiness and stress are in [0,100] (the
boundaries included), exercise yields energy' = min(100, energy+15),
happiness' = min(100, happiness+10) and stress' = max(0, stress-10). -/
theorem exercise_metrics (s : HealthSimulator) (h : InRange s) :
    (exercise s).energyLevel = min 100 (s.energyLevel + 15) ∧
    (exercise s).happinessLevel = min 100 (s.happinessLevel + 10) ∧
    (exercise s).stressLevel = max 0 (s.stressLevel - 10) := by
  obtain ⟨⟨e0, e1⟩, ⟨h0, h1⟩, ⟨s0, s1⟩⟩ := h
  simp only [exercise, clamp]
  omega

theorem exercise_metrics_witness :
    InRange boundaryState ∧
    (exercise boundaryState).energyLevel = min 100 (boundaryState.energyLevel + 15) ∧
    (exercise boundaryState).happinessLevel = min 100 (boundaryState.happinessLevel + 10) ∧
    (exercise boundaryState).stressLevel = max 0 (boundaryState.stressLevel - 10) :=
  ⟨by decide, exercise_metrics boundaryState (by decide)⟩

/-- C3: from every state with metrics in [0,100], each activity (meditate, eatHealthy,
relax and sleep; the row of exercise is covered as well) sets every metric to
clamp(old + delta) with the deltas of the activity table, and a metric whose delta
is 0 is left exactly as it was. -/
theorem activity_metrics (a : Activity) (s : HealthSimulator) (h : InRange s) :
    ((a.perform s).energyLevel = clamp (s.energyLevel + (activityTable a).energy) ∧
     (a.perform s).happinessLevel = clamp (s.happinessLevel + (activityTable a).happiness) ∧
     (a.perform s).stressLevel = clamp (s.stressLevel + (activityTable a).stress)) ∧
    ((activityTable a).energy = 0 → (a.perform s).energyLevel = s.energyLevel) ∧
    ((activityTable a).happiness = 0 → (a.perform s).happinessLevel = s.happinessLevel) ∧
    ((activityTable a).stress = 0 → (a.perform s).stressLevel = s.stressLevel) := by
  obtain ⟨⟨e0, e1⟩, ⟨h0, h1⟩, ⟨s0, s1⟩⟩ := h
  cases a <;>
    simp only [Activity.perform, exercise, meditate, eatHealthy, relax, sleep, activityTable,
      clamp] <;>
    refine ⟨⟨?_, ?_, ?_⟩, ?_, ?_, ?_⟩ <;>
    first | trivial | (intros; omega)

theorem activity_metrics_witness :
    InRange nearBoundaryState ∧
    (Activity.meditate.perform nearBoundaryState).energyLevel = 95 ∧
    (Activity.meditate.perform nearBoundaryState).happinessLevel = 100 ∧
    (Activity.meditate.perform nearBoundaryState).stressLevel = 0 :=
  have h := activity_metrics .meditate nearBoundaryState (by decide)
  ⟨by decide, h.2.1 rfl, h.1.2.1.trans (by decide), h.1.2.2.trans (by decide)⟩

/-! ## Reset -/

/-- C4: from every state, reset yields exactly day = 1, energy = 70, happiness = 60,
stress = 40 and an empty activityCounts map, the same day, metrics and counts as
the freshly constructed simulator, with lastMessage the fixed reset confirmation;
the result does not depend on the state before the reset. -/
theorem reset_restores_initial (s : HealthSimulator) :
    reset s = { day := 1, energyLevel := 70, happinessLevel := 60, stressLevel := 40,
                message := "Simulator reset! Starting a new health journey.",
                activityCounts := [] } ∧
    reset s = { construct with message := "Simulator reset! Starting a new health journey." } ∧
    ∀ t : HealthSimulator, reset s = reset t :=
  ⟨rfl, rfl, fun _ => rfl⟩

/-! ## Day-advance -/

theorem clamp_add_zero (v : Int) (h0 : 0 ≤ v) (h1 : v ≤ 100) : clamp (v + 0) = v := by
  unfold clamp; omega

/-- C6: for every state and every event index 0..5, newDay is the composition, in this
order, of day := day+1, the effect of the chosen event, rule 1 (stress > 70 lowers
happiness by 5, clamped), rule 2 (energy < 30 raises stress by 5, clamped) and rule 3
(happiness < 40 lowers energy by 5, clamped), each rule reading the values the steps
before it left; the message is assigned last.  From energy 25, happiness 35, stress 75
with No Major Event the result is happiness 30, stress 80, energy 20. -/
theorem newDay_is_ordered_composition :
    (∀ (s : HealthSimulator) (i : Nat), i ≤ 5 →
      ∃ ev, events[i]? = some ev ∧
        newDay s i = some
          { specRule3 (specRule2 (specRule1 (ev.effect (specIncDay s)).1)) with
            message := "Day " ++ toString (intIncr s.day) ++ ": " ++ (ev.effect (specIncDay s)).2 }) ∧
    (∃ s', newDay ruleOrderState 5 = some s' ∧
      s'.happinessLevel = 30 ∧ s'.stressLevel = 80 ∧ s'.energyLevel = 20) := by
  refine ⟨?_, _, rfl, by decide, by decide, by decide⟩
  intro s i hi
  rcases events_index i hi with ⟨_, he⟩ | ⟨_, he⟩ | ⟨_, he⟩ | ⟨_, he⟩ | ⟨_, he⟩ | ⟨_, he⟩ <;>
    refine ⟨_, he, ?_⟩ <;>
    simp only [newDay, he, specIncDay, specRule1, specRule2, specRule3,
      unexpectedWorkloadEffect, goodNewsEffect, minorIssueEffect, relaxingEveningEffect,
      badSleepEffect, noMajorEventEffect] <;>
    split_ifs <;> rfl

theorem newDay_is_ordered_composition_witness :
    (2 : Nat) ≤ 5 ∧
    ∃ ev, events[2]? = some ev ∧
      newDay ruleOrderState 2 = some
        { specRule3 (specRule2 (specRule1 (ev.effect (specIncDay ruleOrderState)).1)) with
          message := "Day " ++ toString (intIncr ruleOrderState.day) ++ ": " ++
            (ev.effect (specIncDay ruleOrderState)).2 } :=
  ⟨by decide, newDay_is_ordered_composition.1 ruleOrderState 2 (by decide)⟩

/-- C7: from every state with metrics in [0,100], the effect function stored at each
index 0..5 of the event table carries the name of that row of the specification's
table and changes the state exactly as the row says: every metric becomes
clamp(old + delta), a metric with delta 0 is left unchanged, and nothing else
changes. -/
theorem event_effects_match_table (s : HealthSimulator) (h : InRange s) (i : Nat)
    (hi : i ≤ 5) :
    ∃ ev row, events[i]? = some ev ∧ eventTable[i]? = some row ∧ ev.name = row.1 ∧
      (ev.effect s).1 = applyDelta row.2 s ∧
      (row.2.energy = 0 → (ev.effect s).1.energyLevel = s.energyLevel) ∧
      (row.2.happiness = 0 → (ev.effect s).1.happinessLevel = s.happinessLevel) ∧
      (row.2.stress = 0 → (ev.effect s).1.stressLevel = s.stressLevel) := by
  obtain ⟨⟨e0, e1⟩, ⟨h0, h1⟩, ⟨s0, s1⟩⟩ := h
  have ce := clamp_add_zero _ e0 e1
  have ch := clamp_add_zero _ h0 h1
  have cs := clamp_add_zero _ s0 s1
  rcases events_index i hi with ⟨rfl, he⟩ | ⟨rfl, he⟩ | ⟨rfl, he⟩ | ⟨rfl, he⟩ | ⟨rfl, he⟩ |
      ⟨rfl, he⟩ <;>
    refine ⟨_, _, he, rfl, rfl, ?_, ?_, ?_, ?_⟩ <;>
    simp only [eventTable, List.getElem_cons_zero, List.getElem_cons_succ, applyDelta,
      unexpectedWorkloadEffect, goodNewsEffect, minorIssueEffect, relaxingEveningEffect,
      badSleepEffect, noMajorEventEffect, ce, ch, cs, HealthSimulator.mk.injEq, true_and,
      and_true, and_self] <;>
    first
      | trivial
      | (intros; unfold clamp; omega)

theorem event_effects_match_table_witness :
    InRange nearBoundaryState ∧ (4 : Nat) ≤ 5 ∧
    ∃ ev row, events[4]? = some ev ∧ eventTable[4]? = some row ∧ ev.name = row.1 ∧
      (ev.effect nearBoundaryState).1 = applyDelta row.2 nearBoundaryState ∧
      (row.2.energy = 0 →
        (ev.effect nearBoundaryState).1.energyLevel = nearBoundaryState.energyLevel) ∧
      (row.2.happiness = 0 →
        (ev.effect nearBoundaryState).1.happinessLevel = nearBoundaryState.happinessLevel) ∧
      (row.2.stress = 0 →
        (ev.effect nearBoundaryState).1.stressLevel = nearBoundaryState.stressLevel) :=
  ⟨by decide, by decide, event_effects_match_table nearBoundaryState (by decide) 4 (by decide)⟩

/-- C8 (amended): for every state whose day is below INT_MAX = 2147483647 and every
event index 0..5, newDay returns and increases day by exactly 1. -/
theorem newDay_increments_day (s : HealthSimulator) (i : Nat) (hi : i ≤ 5)
    (hlo : -2147483648 ≤ s.day) (hhi : s.day < 2147483647) :
    ∃ s', newDay s i = some s' ∧ s'.day = s.day + 1 := by
  obtain ⟨s', h1, h2⟩ := newDay_day s i hi
  exact ⟨s', h1, by rw [h2, intIncr_of_lt _ hlo hhi]⟩

theorem newDay_increments_day_witness :
    (0 : Nat) ≤ 5 ∧ -2147483648 ≤ construct.day ∧ construct.day < 2147483647 ∧
    ∃ s', newDay construct 0 = some s' ∧ s'.day = construct.day + 1 :=
  ⟨by decide, by decide, by decide,
    newDay_increments_day construct 0 (by decide) (by decide) (by decide)⟩

theorem newDay_activityCounts (s : HealthSimulator) (i : Nat) (hi : i ≤ 5) :
    ∃ s', newDay s i = some s' ∧ s'.activityCounts = s.activityCounts := by
  rcases events_index i hi with ⟨_, he⟩ | ⟨_, he⟩ | ⟨_, he⟩ | ⟨_, he⟩ | ⟨_, he⟩ | ⟨_, he⟩ <;>
    simp only [newDay, he, unexpectedWorkloadEffect, goodNewsEffect, minorIssueEffect,
      relaxingEveningEffect, badSleepEffect, noMajorEventEffect] <;>
    refine ⟨_, rfl, ?_⟩ <;>
    split_ifs <;> rfl

/-- C9: for every state and every event index 0..5, newDay returns and leaves the
activityCounts map exactly as it was: no entry is added, removed or changed. -/
theorem newDay_keeps_activityCounts (s : HealthSimulator) (i : Nat) (hi : i ≤ 5) :
    ∃ s', newDay s i = some s' ∧ s'.activityCounts = s.activityCounts :=
  newDay_activityCounts s i hi

theorem newDay_keeps_activityCounts_witness :
    (3 : Nat) ≤ 5 ∧
    ∃ s', newDay (sleep (exercise construct)) 3 = some s' ∧
      s'.activityCounts = (sleep (exercise construct)).activityCounts :=
  ⟨by decide, newDay_keeps_activityCounts (sleep (exercise construct)) 3 (by decide)⟩

/-! ## The activity counts -/

theorem mem_countsIncr (key : String) (m : List (String × Int)) (p : String × Int)
    (hp : p ∈ countsIncr key m) : p.1 = key ∨ p ∈ m := by
  induction m with
  | nil =>
    simp only [countsIncr, List.mem_singleton] at hp
    exact Or.inl (by rw [hp])
  | cons q rest ih =>
    obtain ⟨k, v⟩ := q
    simp only [countsIncr] at hp
    split_ifs at hp with h1 h2
    · rcases List.mem_cons.1 hp with h | h
      · exact Or.inl (by rw [h])
      · exact Or.inr h
    · rcases List.mem_cons.1 hp with h | h
      · exact Or.inl (by rw [h, h2])
      · exact Or.inr (List.mem_cons_of_mem _ h)
    · rcases List.mem_cons.1 hp with h | h
      · exact Or.inr (by rw [h]; exact List.mem_cons_self _ _)
      · rcases ih h with h' | h'
        · exact Or.inl h'
        · exact Or.inr (List.mem_cons_of_mem _ h')

theorem countsIncr_wf (key : String) (m : List (String × Int)) (h : CountsWF m) :
    CountsWF (countsIncr key m) := by
  induction m with
  | nil => simp [countsIncr, CountsWF]
  | cons q rest ih =>
    obtain ⟨k, v⟩ := q
    unfold CountsWF at h ih ⊢
    rw [List.pairwise_cons] at h
    obtain ⟨hk, hrest⟩ := h
    simp only [countsIncr]
    split_ifs with h1 h2
    · refine List.pairwise_cons.2 ⟨?_, List.pairwise_cons.2 ⟨hk, hrest⟩⟩
      intro p hp
      rcases List.mem_cons.1 hp with h | h
      · rw [h]; exact h1
      · exact lt_trans h1 (hk p h)
    · exact List.pairwise_cons.2 ⟨hk, hrest⟩
    · refine List.pairwise_cons.2 ⟨?_, ih hrest⟩
      intro p hp
      rcases mem_countsIncr key rest p hp with h | h
      · rw [h]
        exact lt_of_le_of_ne (not_lt.1 h1) (fun e => h2 e.symm)
      · exact hk p h

theorem countsFind_eq_none_of_lt (key : String) (m : List (String × Int))
    (h : ∀ p ∈ m, key < p.1) : countsFind key m = none := by
  induction m with
  | nil => rfl
  | cons q rest ih =>
    obtain ⟨k, v⟩ := q
    have hk : key < k := h (k, v) (List.mem_cons_self _ _)
    simp only [countsFind, if_neg (ne_of_lt hk)]
    exact ih (fun p hp => h p (List.mem_cons_of_mem _ hp))

theorem countsFind_countsIncr (key : String) (m : List (String × Int)) (h : CountsWF m)
    (k : String) :
    countsFind k (countsIncr key m) =
      if k = key then some (intIncr ((countsFind key m).getD 0)) else countsFind k m := by
  induction m with
  | nil =>
    by_cases hk : k = key <;> simp [countsIncr, countsFind, hk]
  | cons q rest ih =>
    obtain ⟨k0, v0⟩ := q
    unfold CountsWF at h ih
    rw [List.pairwise_cons] at h
    obtain ⟨hk0, hrest⟩ := h
    simp only [countsIncr]
    split_ifs with h1 h2 h3 h4 h5
    · -- key < k0, k = key
      have hnone : countsFind key ((k0, v0) :: rest) = none :=
        countsFind_eq_none_of_lt key _ (fun p hp => by
          rcases List.mem_cons.1 hp with e | e
          · rw [e]; exact h1
          · exact lt_trans h1 (hk0 p e))
      rw [hnone, h2]
      simp [countsFind]
    · -- key < k0, k ≠ key
      simp [countsFind, h2]
    · -- key = k0, k = key
      subst h3
      simp [countsFind, h4]
    · -- key = k0, k ≠ key
      subst h3
      simp [countsFind, h4]
    · -- k0 < key, k = key
      subst h5
      have hne : ¬ k = k0 := h3
      simp only [countsFind, if_neg hne]
      rw [ih hrest]
      simp
    · -- k0 < key, k ≠ key
      simp only [countsFind]
      by_cases hkk : k = k0
      · simp [hkk]
      · simp only [if_neg hkk]
        rw [ih hrest]
        simp [h5]

theorem perform_activityCounts (a : Activity) (s : HealthSimulator) :
    (a.perform s).activityCounts = countsIncr a.key s.activityCounts := by
  cases a <;> rfl

theorem key_injective (a b : Activity) (h : a.key = b.key) : a = b := by
  cases a <;> cases b <;> first | rfl | exact absurd h (by decide)

theorem apply_counts (op : Op) (s : HealthSimulator) (hwf : CountsWF s.activityCounts)
    (hop : op ≠ Op.reset ∧ op.IndexOk) :
    ∃ s', op.apply s = some s' ∧ CountsWF s'.activityCounts ∧
      ∀ a : Activity, countsFind a.key s'.activityCounts =
        if op = Op.activity a then some (intIncr ((countsFind a.key s.activityCounts).getD 0))
        else countsFind a.key s.activityCounts := by
  cases op with
  | activity b =>
    refine ⟨_, rfl, ?_, ?_⟩
    · rw [perform_activityCounts]; exact countsIncr_wf _ _ hwf
    · intro a
      rw [perform_activityCounts, countsFind_countsIncr _ _ hwf]
      by_cases hab : a = b
      · subst hab; simp
      · have h1 : ¬ a.key = b.key := fun e => hab (key_injective a b e)
        have h2 : ¬ Op.activity b = Op.activity a := fun e => hab (Op.activity.inj e).symm
        rw [if_neg h1, if_neg h2]
  | newDay i =>
    obtain ⟨s', h1, h2⟩ := newDay_activityCounts s i hop.2
    refine ⟨s', h1, by rw [h2]; exact hwf, ?_⟩
    intro a
    rw [h2]; simp
  | reset => exact absurd rfl hop.1

theorem wrapInt_intIncr_add (g c : Int) :
    wrapInt (intIncr g + c) = wrapInt (g + (c + 1)) := by
  unfold intIncr wrapInt; omega

theorem runOps_counts (ops : List Op) (s : HealthSimulator)
    (hwf : CountsWF s.activityCounts) (hops : ∀ op ∈ ops, op ≠ Op.reset ∧ op.IndexOk) :
    ∃ s', runOps ops s = some s' ∧ CountsWF s'.activityCounts ∧
      ∀ a : Activity, countsFind a.key s'.activityCounts =
        if ops.count (Op.activity a) = 0 then countsFind a.key s.activityCounts
        else some (wrapInt ((countsFind a.key s.activityCounts).getD 0 +
          (ops.count (Op.activity a) : Nat))) := by
  induction ops generalizing s with
  | nil => exact ⟨s, rfl, hwf, fun a => by simp⟩
  | cons op ops ih =>
    obtain ⟨s1, h1, hwf1, hc1⟩ := apply_counts op s hwf (hops op (List.mem_cons_self _ _))
    obtain ⟨s2, h2, hwf2, hc2⟩ := ih s1 hwf1 (fun o ho => hops o (List.mem_cons_of_mem _ ho))
    refine ⟨s2, by simp [runOps, h1, h2], hwf2, ?_⟩
    intro a
    rw [hc2 a, hc1 a, List.count_cons]
    by_cases hop : op = Op.activity a
    · subst hop
      by_cases hz : List.count (Op.activity a) ops = 0
      · simp [hz, intIncr]
      · simp only [if_true, if_neg hz, Option.getD_some, beq_self_eq_true]
        rw [if_neg (by omega), wrapInt_intIncr_add]
        push_cast
        rfl
    · have hb : (op == Op.activity a) = false := by simpa using hop
      simp [hop, hb]

/-- C5 (amended): started in a state with empty activityCounts (fresh or just reset),
every sequence of activity calls and day-advances (event index 0..5) in which each
activity occurs fewer than 2^31 = 2147483648 times runs to completion, and afterwards
the count recorded under the name of each of the five activities equals the number of
times that activity occurs in the sequence, an activity never called having no entry;
so an activity called N < 2^31 times (and nothing else) has count N. -/
theorem counts_equal_occurrences (s : HealthSimulator) (hs : s.activityCounts = [])
    (ops : List Op) (hops : ∀ op ∈ ops, op ≠ Op.reset ∧ op.IndexOk)
    (hbound : ∀ a : Activity, ops.count (Op.activity a) < 2147483648) :
    ∃ s', runOps ops s = some s' ∧
      ∀ a : Activity, countsFind a.key s'.activityCounts =
        if ops.count (Op.activity a) = 0 then none
        else some ((ops.count (Op.activity a) : Nat) : Int) := by
  obtain ⟨s', h1, _, h2⟩ := runOps_counts ops s (by rw [hs]; exact List.Pairwise.nil) hops
  refine ⟨s', h1, fun a => ?_⟩
  rw [h2 a, hs]
  have hb := hbound a
  by_cases hz : ops.count (Op.activity a) = 0
  · simp [hz, countsFind]
  · simp only [if_neg hz, countsFind, Option.getD_none]
    rw [wrapInt_of_range _ (by omega) (by omega), Int.zero_add]

theorem counts_equal_occurrences_witness :
    (reset (exercise construct)).activityCounts = [] ∧
    (∀ op ∈ [Op.activity .sleep, Op.newDay 1, Op.activity .sleep, Op.activity .relax,
        Op.activity .sleep], op ≠ Op.reset ∧ op.IndexOk) ∧
    (∀ a : Activity, [Op.activity .sleep, Op.newDay 1, Op.activity .sleep,
        Op.activity .relax, Op.activity .sleep].count (Op.activity a) < 2147483648) ∧
    ∃ s', runOps [Op.activity .sleep, Op.newDay 1, Op.activity .sleep, Op.activity .relax,
        Op.activity .sleep] (reset (exercise construct)) = some s' ∧
      ∀ a : Activity, countsFind a.key s'.activityCounts =
        if [Op.activity .sleep, Op.newDay 1, Op.activity .sleep, Op.activity .relax,
            Op.activity .sleep].count (Op.activity a) = 0 then none
        else some (([Op.activity .sleep, Op.newDay 1, Op.activity .sleep, Op.activity .relax,
            Op.activity .sleep].count (Op.activity a) : Nat) : Int) :=
  ⟨by decide, by decide, fun a => by cases a <;> decide,
    counts_equal_occurrences _ (by decide) _ (by decide) (fun a => by cases a <;> decide)⟩

/-! ## The activity report -/

theorem statsLoop_out (m : List (String × Int)) (st : StatsLoop) :
    (m.foldl statsLoopBody st).out = st.out ++ activityLines m := by
  induction m generalizing st with
  | nil => simp [activityLines]
  | cons p rest ih =>
    rw [List.foldl_cons, ih]
    have : (statsLoopBody st p).out =
        st.out ++ (leftSetw 15 p.1 ++ ": " ++ toString p.2 ++ " times\n") := by
      simp only [statsLoopBody]
      split_ifs <;> rfl
    rw [this, activityLines, String.append_assoc]

/-- What the loop of the report leaves in `maxCount` and `mostFrequentActivity`:
either no count exceeded the initial maximum and both are unchanged, or they are the
first entry, in map order, holding the largest count. -/
theorem statsLoop_max (m : List (String × Int)) (st : StatsLoop) :
    ((m.foldl statsLoopBody st).maxCount = st.maxCount ∧
        (m.foldl statsLoopBody st).mostFrequentActivity = st.mostFrequentActivity ∧
        ∀ p ∈ m, p.2 ≤ st.maxCount) ∨
    (∃ l1 l2, m = l1 ++ ((m.foldl statsLoopBody st).mostFrequentActivity,
          (m.foldl statsLoopBody st).maxCount) :: l2 ∧
        (∀ p ∈ l1, p.2 < (m.foldl statsLoopBody st).maxCount) ∧
        (∀ p ∈ l2, p.2 ≤ (m.foldl statsLoopBody st).maxCount) ∧
        st.maxCount < (m.foldl statsLoopBody st).maxCount) := by
  induction m generalizing st with
  | nil => exact Or.inl ⟨rfl, rfl, fun p hp => absurd hp (List.not_mem_nil p)⟩
  | cons q rest ih =>
    rw [List.foldl_cons]
    by_cases hq : q.2 > st.maxCount
    · have hm : (statsLoopBody st q).maxCount = q.2 := by
        simp only [statsLoopBody, if_pos hq]
      have hn : (statsLoopBody st q).mostFrequentActivity = q.1 := by
        simp only [statsLoopBody, if_pos hq]
      rcases ih (statsLoopBody st q) with ⟨h1, h2, h3⟩ | ⟨l1, l2, h1, h2, h3, h4⟩
      · right
        refine ⟨[], rest, ?_, fun p hp => absurd hp (List.not_mem_nil p), ?_, ?_⟩
        · rw [h1, h2, hm, hn]; rfl
        · intro p hp; rw [h1]; exact h3 p hp
        · rw [h1, hm]; exact hq
      · right
        rw [hm] at h4
        refine ⟨q :: l1, l2, ?_, ?_, h3, lt_trans hq h4⟩
        · rw [List.cons_append, ← h1]
        · intro p hp
          rcases List.mem_cons.1 hp with e | e
          · rw [e]; exact h4
          · exact h2 p e
    · have hm : (statsLoopBody st q).maxCount = st.maxCount := by
        simp only [statsLoopBody, if_neg hq]
      have hn : (statsLoopBody st q).mostFrequentActivity = st.mostFrequentActivity := by
        simp only [statsLoopBody, if_neg hq]
      rcases ih (statsLoopBody st q) with ⟨h1, h2, h3⟩ | ⟨l1, l2, h1, h2, h3, h4⟩
      · left
        refine ⟨h1.trans hm, h2.trans hn, ?_⟩
        intro p hp
        rcases List.mem_cons.1 hp with e | e
        · rw [e]; exact not_lt.1 hq
        · rw [← hm]; exact h3 p e
      · right
        rw [hm] at h4
        refine ⟨q :: l1, l2, ?_, ?_, h3, h4⟩
        · rw [List.cons_append, ← h1]
        · intro p hp
          rcases List.mem_cons.1 hp with e | e
          · rw [e]; exact lt_of_le_of_lt (not_lt.1 hq) h4
          · exact h2 p e

theorem display_of_nonempty (s : HealthSimulator) (hne : s.activityCounts ≠ []) :
    displayActivityStats s =
      reportNaming s
        (s.activityCounts.foldl statsLoopBody
          ⟨"\n--- Activity Log ---\n", "None", 0⟩).mostFrequentActivity
        (s.activityCounts.foldl statsLoopBody
          ⟨"\n--- Activity Log ---\n", "None", 0⟩).maxCount := by
  have he : s.activityCounts.isEmpty = false := by
    cases hm : s.activityCounts with
    | nil => exact absurd hm hne
    | cons _ _ => rfl
  unfold displayActivityStats reportNaming
  simp only [he, Bool.false_eq_true, if_false, statsLoop_out]

theorem reportsFirstMax_of_positive (s : HealthSimulator)
    (hwf : CountsWF s.activityCounts) (hpos : ∃ p ∈ s.activityCounts, 0 < p.2) :
    ReportsFirstMax s := by
  obtain ⟨p0, hp0, hp0pos⟩ := hpos
  have hne : s.activityCounts ≠ [] := fun e => by rw [e] at hp0; exact List.not_mem_nil _ hp0
  have hd := display_of_nonempty s hne
  rcases statsLoop_max s.activityCounts ⟨"\n--- Activity Log ---\n", "None", 0⟩ with
    ⟨_, _, h3⟩ | ⟨l1, l2, h1, h2, h3, _⟩
  · exact absurd (h3 p0 hp0) (not_le.2 hp0pos)
  · generalize (s.activityCounts.foldl statsLoopBody
        ⟨"\n--- Activity Log ---\n", "None", 0⟩).mostFrequentActivity = name at h1 hd
    generalize (s.activityCounts.foldl statsLoopBody
        ⟨"\n--- Activity Log ---\n", "None", 0⟩).maxCount = cnt at h1 h2 h3 hd
    unfold CountsWF at hwf
    rw [h1, List.pairwise_append, List.pairwise_cons] at hwf
    obtain ⟨_, ⟨hx, _⟩, _⟩ := hwf
    have hmem : ∀ p, p ∈ s.activityCounts → p ∈ l1 ∨ p = (name, cnt) ∨ p ∈ l2 := by
      intro p hp
      rw [h1, List.mem_append, List.mem_cons] at hp
      exact hp
    refine ⟨name, cnt, ?_, ?_, ?_, hd⟩
    · rw [h1]
      exact List.mem_append_right _ (List.mem_cons_self _ _)
    · intro p hp
      rcases hmem p hp with e | e | e
      · exact le_of_lt (h2 p e)
      · rw [e]
      · exact h3 p e
    · intro p hp hpc
      rcases hmem p hp with e | e | e
      · exact absurd hpc (ne_of_lt (h2 p e))
      · rw [e]
      · exact le_of_lt (hx p e)

theorem display_of_empty (s : HealthSimulator) (he : s.activityCounts = []) :
    displayActivityStats s =
      "\n--- Activity Log ---\nNo activities recorded yet.\n--------------------\n" := by
  unfold displayActivityStats
  rw [he]
  decide

/-! ## The message of a day-advance -/

theorem newDay_message_eq (s : HealthSimulator) (i : Nat) (hi : i ≤ 5) :
    ∃ s' d ev, newDay s i = some s' ∧ eventDescriptions[i]? = some d ∧
      events[i]? = some ev ∧ (∀ t, (ev.effect t).2 = d) ∧
      s'.message = "Day " ++ toString (intIncr s.day) ++ ": " ++ d := by
  rcases events_index i hi with ⟨rfl, he⟩ | ⟨rfl, he⟩ | ⟨rfl, he⟩ | ⟨rfl, he⟩ | ⟨rfl, he⟩ |
      ⟨rfl, he⟩ <;>
    simp only [newDay, he, unexpectedWorkloadEffect, goodNewsEffect, minorIssueEffect,
      relaxingEveningEffect, badSleepEffect, noMajorEventEffect] <;>
    refine ⟨_, _, _, rfl, rfl, rfl, fun _ => rfl, ?_⟩ <;>
    split_ifs <;> rfl

/-- C11: for every state and every event index 0..5, after newDay the lastMessage is
"Day " followed by the decimal rendering of the new, already incremented day, then
": ", then the fixed description string of the chosen event (the string its effect
returns on every state); it depends on nothing else: two states with the same day get
the same message, whatever their metrics and whichever secondary rule fires. -/
theorem newDay_message (s : HealthSimulator) (i : Nat) (hi : i ≤ 5) :
    ∃ s' d ev, newDay s i = some s' ∧ eventDescriptions[i]? = some d ∧
      events[i]? = some ev ∧ (∀ t, (ev.effect t).2 = d) ∧
      s'.message = "Day " ++ toString (intIncr s.day) ++ ": " ++ d ∧
      ∀ t : HealthSimulator, t.day = s.day →
        ∃ t', newDay t i = some t' ∧ t'.message = s'.message := by
  obtain ⟨s', d, ev, h1, h2, h3, h4, h5⟩ := newDay_message_eq s i hi
  refine ⟨s', d, ev, h1, h2, h3, h4, h5, ?_⟩
  intro t ht
  obtain ⟨t', d', _, g1, g2, _, _, g5⟩ := newDay_message_eq t i hi
  refine ⟨t', g1, ?_⟩
  have hd : d' = d := Option.some.inj (g2.symm.trans h2)
  rw [g5, h5, hd, ht]

theorem newDay_message_witness :
    (0 : Nat) ≤ 5 ∧
    ∃ s' d ev, newDay ruleOrderState 0 = some s' ∧ eventDescriptions[0]? = some d ∧
      events[0]? = some ev ∧ (∀ t, (ev.effect t).2 = d) ∧
      s'.message = "Day " ++ toString (intIncr ruleOrderState.day) ++ ": " ++ d ∧
      ∀ t : HealthSimulator, t.day = ruleOrderState.day →
        ∃ t', newDay t 0 = some t' ∧ t'.message = s'.message :=
  ⟨by decide, newDay_message ruleOrderState 0 (by decide)⟩

/-! ## The day counter -/

theorem runOps_append (xs ys : List Op) (s : HealthSimulator) :
    runOps (xs ++ ys) s = (runOps xs s).bind (runOps ys) := by
  induction xs generalizing s with
  | nil => rfl
  | cons x xs ih =>
    simp only [List.cons_append, runOps]
    cases h : x.apply s with
    | none => rfl
    | some s1 => exact ih s1

theorem sinceLastReset_concat (ops : List Op) (op : Op) :
    sinceLastReset (ops ++ [op]) =
      if op = Op.reset then [] else sinceLastReset ops ++ [op] := by
  unfold sinceLastReset
  rw [List.reverse_append, List.reverse_singleton, List.singleton_append,
    List.takeWhile_cons]
  by_cases h : op = Op.reset
  · simp [h]
  · simp [h]

theorem perform_day (a : Activity) (s : HealthSimulator) : (a.perform s).day = s.day := by
  cases a <;> rfl

theorem dayAdvances_concat (ops : List Op) (op : Op) :
    dayAdvances (ops ++ [op]) =
      dayAdvances ops + (match op with
        | .newDay _ => 1
        | _ => 0) := by
  cases op <;> simp [dayAdvances, List.countP_append]

/-- The day counter after any run from the constructor: 1 plus the number of
day-advances since the last reset, as an `int`. -/
theorem runOps_day (ops : List Op) (hops : ∀ op ∈ ops, op.IndexOk) :
    ∃ s, runOps ops construct = some s ∧
      s.day = wrapInt (1 + (dayAdvances (sinceLastReset ops) : Nat)) := by
  induction ops using List.reverseRecOn with
  | nil => exact ⟨construct, rfl, by decide⟩
  | append_singleton xs x ih =>
    obtain ⟨s, hs, hd⟩ := ih (fun o ho => hops o (List.mem_append_left _ ho))
    have hx : x.IndexOk := hops x (List.mem_append_right _ (List.mem_singleton_self x))
    rw [runOps_append, hs, sinceLastReset_concat]
    cases x with
    | activity a =>
      refine ⟨a.perform s, rfl, ?_⟩
      rw [perform_day, hd, if_neg (by simp), dayAdvances_concat]
      rfl
    | newDay i =>
      obtain ⟨s', h1, h2⟩ := newDay_day s i hx
      refine ⟨s', by simp [runOps, Op.apply, h1], ?_⟩
      rw [h2, hd, if_neg (by simp), dayAdvances_concat, intIncr_wrapInt]
      push_cast
      rw [Int.add_assoc]
    | reset =>
      refine ⟨reset s, rfl, ?_⟩
      rw [if_pos rfl]
      exact (by decide : (1 : Int) = wrapInt (1 + ((dayAdvances ([] : List Op) : Nat) : Int)))

/-- C12 (amended): every sequence of activities, resets and day-advances (event index
0..5) runs to completion from the freshly constructed state; if fewer than
2^31 - 1 = 2147483647 day-advances were performed since construction or since the most
recent reset, then in the state it reaches day is 1 plus the number of those
day-advances, hence day >= 1; none of the five activities changes day. -/
theorem day_counts_advances (ops : List Op) (hops : ∀ op ∈ ops, op.IndexOk)
    (hbound : dayAdvances (sinceLastReset ops) < 2147483647) :
    (∃ s, runOps ops construct = some s ∧
      s.day = 1 + (dayAdvances (sinceLastReset ops) : Nat) ∧ 1 ≤ s.day) ∧
    ∀ (a : Activity) (t : HealthSimulator), (a.perform t).day = t.day := by
  obtain ⟨s, h1, h2⟩ := runOps_day ops hops
  rw [wrapInt_of_range _ (by omega) (by omega)] at h2
  exact ⟨⟨s, h1, h2, by omega⟩, perform_day⟩

theorem day_counts_advances_witness :
    (∀ op ∈ [Op.newDay 3, Op.activity .relax, Op.reset, Op.newDay 5, Op.activity .sleep,
        Op.newDay 0], op.IndexOk) ∧
    dayAdvances (sinceLastReset [Op.newDay 3, Op.activity .relax, Op.reset, Op.newDay 5,
        Op.activity .sleep, Op.newDay 0]) < 2147483647 ∧
    (∃ s, runOps [Op.newDay 3, Op.activity .relax, Op.reset, Op.newDay 5,
        Op.activity .sleep, Op.newDay 0] construct = some s ∧
      s.day = 1 + (dayAdvances (sinceLastReset [Op.newDay 3, Op.activity .relax, Op.reset,
        Op.newDay 5, Op.activity .sleep, Op.newDay 0]) : Nat) ∧ 1 ≤ s.day) ∧
    ∀ (a : Activity) (t : HealthSimulator), (a.perform t).day = t.day :=
  ⟨by decide, by decide, day_counts_advances _ (by decide) (by decide)⟩

/-! ## The menu loop -/

/-- C13: in one turn of the menu loop (event index of a day-advance in 0..5) the step
taken for the integer choice is 1 exercise, 2 meditate, 3 eatHealthy, 4 relax, 5 sleep,
6 newDay, 8 reset; for choice 7, choice 9 and every integer outside 1..9 the simulator
state (day, metrics, lastMessage, activityCounts) is left unchanged; and the loop stops
after the turn if and only if the choice was 9. -/
theorem mainTurn_dispatch (sim : HealthSimulator) (choice : Int) (i : Nat) (hi : i ≤ 5) :
    ∃ r, mainTurn sim choice i = some r ∧
      (choice = 1 → r.sim = exercise sim) ∧
      (choice = 2 → r.sim = meditate sim) ∧
      (choice = 3 → r.sim = eatHealthy sim) ∧
      (choice = 4 → r.sim = relax sim) ∧
      (choice = 5 → r.sim = sleep sim) ∧
      (choice = 6 → newDay sim i = some r.sim) ∧
      (choice = 8 → r.sim = reset sim) ∧
      (choice = 7 ∨ choice = 9 ∨ choice < 1 ∨ 9 < choice → r.sim = sim) ∧
      (r.continues = false ↔ choice = 9) := by
  obtain ⟨s', hs', _⟩ := newDay_day sim i hi
  unfold mainTurn
  simp only [hs', Option.map]
  split_ifs <;> refine ⟨_, rfl, ?_⟩ <;> simp <;> omega

theorem mainTurn_dispatch_witness :
    (2 : Nat) ≤ 5 ∧
    ∃ r, mainTurn construct 6 2 = some r ∧
      ((6 : Int) = 1 → r.sim = exercise construct) ∧
      ((6 : Int) = 2 → r.sim = meditate construct) ∧
      ((6 : Int) = 3 → r.sim = eatHealthy construct) ∧
      ((6 : Int) = 4 → r.sim = relax construct) ∧
      ((6 : Int) = 5 → r.sim = sleep construct) ∧
      ((6 : Int) = 6 → newDay construct 2 = some r.sim) ∧
      ((6 : Int) = 8 → r.sim = reset construct) ∧
      ((6 : Int) = 7 ∨ (6 : Int) = 9 ∨ (6 : Int) < 1 ∨ 9 < (6 : Int) → r.sim = construct) ∧
      (r.continues = false ↔ (6 : Int) = 9) :=
  ⟨by decide, mainTurn_dispatch construct 6 2 (by decide)⟩

/-! ## Gating of the secondary rules -/

theorem newDay_eq_spec (s : HealthSimulator) (i : Nat) (hi : i ≤ 5) :
    ∃ ev, events[i]? = some ev ∧
      newDay s i = some
        { specRule3 (specRule2 (specRule1 (ev.effect (specIncDay s)).1)) with
          message := "Day " ++ toString (intIncr s.day) ++ ": " ++ (ev.effect (specIncDay s)).2 } := by
  rcases events_index i hi with ⟨_, he⟩ | ⟨_, he⟩ | ⟨_, he⟩ | ⟨_, he⟩ | ⟨_, he⟩ | ⟨_, he⟩ <;>
    refine ⟨_, he, ?_⟩ <;>
    simp only [newDay, he, specIncDay, specRule1, specRule2, specRule3,
      unexpectedWorkloadEffect, goodNewsEffect, minorIssueEffect, relaxingEveningEffect,
      badSleepEffect, noMajorEventEffect] <;>
    split_ifs <;> rfl

/-- C14 (amended): in a day-advance rule 1 is gated on the stress value immediately
after the event effect and is not evaluated again after rule 2: the final happiness is
clamp(happiness - 5) of the post-event happiness if the post-event stress is > 70 and
the post-event happiness otherwise, so happiness is lowered if and only if the
post-event stress is > 70 and the post-event happiness is > 0.  From energy 20,
happiness 60, stress 68 with No Major Event the result is energy 20, happiness 60,
stress 73: the day ends with stress > 70 and happiness not reduced. -/
theorem rule1_gated_on_post_event_stress :
    (∀ (s : HealthSimulator) (i : Nat), i ≤ 5 →
      ∃ ev s', events[i]? = some ev ∧ newDay s i = some s' ∧
        s'.happinessLevel =
          (if (ev.effect (specIncDay s)).1.stressLevel > 70
            then clamp ((ev.effect (specIncDay s)).1.happinessLevel - 5)
            else (ev.effect (specIncDay s)).1.happinessLevel) ∧
        (s'.happinessLevel < (ev.effect (specIncDay s)).1.happinessLevel ↔
          (ev.effect (specIncDay s)).1.stressLevel > 70 ∧
            0 < (ev.effect (specIncDay s)).1.happinessLevel)) ∧
    (∃ s', newDay gateState 5 = some s' ∧
      s'.energyLevel = 20 ∧ s'.happinessLevel = 60 ∧ s'.stressLevel = 73) := by
  refine ⟨?_, _, rfl, by decide, by decide, by decide⟩
  intro s i hi
  obtain ⟨ev, he, hn⟩ := newDay_eq_spec s i hi
  refine ⟨ev, _, he, hn, ?_, ?_⟩ <;>
    generalize (ev.effect (specIncDay s)).1 = post <;>
    simp only [specRule1, specRule2, specRule3] <;>
    split_ifs <;>
    first | omega | (simp only [clamp] <;> omega)

theorem rule1_gated_on_post_event_stress_witness :
    (0 : Nat) ≤ 5 ∧
    ∃ ev s', events[0]? = some ev ∧ newDay gateState 0 = some s' ∧
      s'.happinessLevel =
        (if (ev.effect (specIncDay gateState)).1.stressLevel > 70
          then clamp ((ev.effect (specIncDay gateState)).1.happinessLevel - 5)
          else (ev.effect (specIncDay gateState)).1.happinessLevel) ∧
      (s'.happinessLevel < (ev.effect (specIncDay gateState)).1.happinessLevel ↔
        (ev.effect (specIncDay gateState)).1.stressLevel > 70 ∧
          0 < (ev.effect (specIncDay gateState)).1.happinessLevel) :=
  ⟨by decide, rule1_gated_on_post_event_stress.1 gateState 0 (by decide)⟩

/-- C14 as stated fails at happiness 0: from energy 50, happiness 0, stress 75 with No
Major Event the post-event stress is 75 > 70, rule 1 fires, and happiness stays 0, so
it is not lowered although the post-event stress is > 70. -/
theorem rule1_gated_on_post_event_stress_counterexample :
    ∃ ev s', events[5]? = some ev ∧ newDay zeroHappinessState 5 = some s' ∧
      (ev.effect (specIncDay zeroHappinessState)).1.stressLevel > 70 ∧
      ¬ (s'.happinessLevel < (ev.effect (specIncDay zeroHappinessState)).1.happinessLevel) :=
  ⟨_, _, rfl, rfl, by decide, by decide⟩

/-! ## Direction of the activities -/

/-- C15: from every state with metrics in [0,100], none of the five activities lowers
energy, lowers happiness or raises stress: after exercise, meditate, eatHealthy, relax
or sleep, energy' >= energy, happiness' >= happiness and stress' <= stress. -/
theorem activities_never_worsen (a : Activity) (s : HealthSimulator) (h : InRange s) :
    s.energyLevel ≤ (a.perform s).energyLevel ∧
    s.happinessLevel ≤ (a.perform s).happinessLevel ∧
    (a.perform s).stressLevel ≤ s.stressLevel := by
  obtain ⟨⟨e0, e1⟩, ⟨h0, h1⟩, ⟨s0, s1⟩⟩ := h
  cases a <;>
    simp only [Activity.perform, exercise, meditate, eatHealthy, relax, sleep, clamp] <;>
    omega

theorem activities_never_worsen_witness :
    InRange boundaryState ∧
    boundaryState.energyLevel ≤ (Activity.sleep.perform boundaryState).energyLevel ∧
    boundaryState.happinessLevel ≤ (Activity.sleep.perform boundaryState).happinessLevel ∧
    (Activity.sleep.perform boundaryState).stressLevel ≤ boundaryState.stressLevel :=
  ⟨by decide, activities_never_worsen .sleep boundaryState (by decide)⟩

/-! ## Totality -/

theorem newDay_isSome (s : HealthSimulator) (i : Nat) (hi : i ≤ 5) :
    (newDay s i).isSome = true := by
  obtain ⟨s', h, _⟩ := newDay_day s i hi
  rw [h]; rfl

theorem newDay_eq_none_iff (s : HealthSimulator) (i : Nat) : newDay s i = none ↔ 5 < i := by
  constructor
  · intro h
    by_contra hi
    have := newDay_isSome s i (by omega)
    rw [h] at this
    exact absurd this (by decide)
  · intro hi
    have he : events[i]? = none := List.getElem?_eq_none (by simp [events]; omega)
    simp only [newDay, he]

/-- C16: the event table built by the constructor has exactly six entries and the range
of the event draw is 0..size-1 = 0..5; for every index in that range the lookup
events[eventIndex] is defined and newDay returns, the out-of-range branch being taken
exactly for indices above 5; and every operation of the core (an activity, reset, a
day-advance with a drawn index) returns a state. -/
theorem event_lookup_total :
    events.length = 6 ∧ distEventMin = 0 ∧ distEventMax = 5 ∧
    (∀ i : Nat, distEventMin ≤ i → i ≤ distEventMax →
      (events[i]?).isSome = true ∧ ∀ s : HealthSimulator, (newDay s i).isSome = true) ∧
    (∀ (s : HealthSimulator) (i : Nat), newDay s i = none ↔ distEventMax < i) ∧
    (∀ (op : Op) (s : HealthSimulator), op.IndexOk → (op.apply s).isSome = true) := by
  refine ⟨rfl, rfl, rfl, ?_, ?_, ?_⟩
  · intro i _ hi
    have hi5 : i ≤ 5 := hi
    refine ⟨?_, fun s => newDay_isSome s i hi5⟩
    rcases events_index i hi5 with ⟨_, he⟩ | ⟨_, he⟩ | ⟨_, he⟩ | ⟨_, he⟩ | ⟨_, he⟩ | ⟨_, he⟩ <;>
      rw [he] <;> rfl
  · intro s i
    exact newDay_eq_none_iff s i
  · intro op s hop
    cases op with
    | activity a => rfl
    | newDay i => exact newDay_isSome s i hop
    | reset => rfl

theorem event_lookup_total_witness :
    distEventMin ≤ 5 ∧ 5 ≤ distEventMax ∧
    (events[5]?).isSome = true ∧ ∀ s : HealthSimulator, (newDay s 5).isSome = true :=
  ⟨by decide, by decide, event_lookup_total.2.2.2.1 5 (by decide) (by decide)⟩

/-! ## A calm day -/

/-- C19: from every state with stress <= 70, energy >= 30 and happiness >= 40, a
day-advance whose event is No Major Event (index 5) leaves energy, happiness, stress and
activityCounts unchanged and changes only day and lastMessage; outside that region the
same event can still change metrics through the secondary rules (from energy 25,
happiness 35, stress 75 all three change). -/
theorem calm_day_frame :
    (∀ s : HealthSimulator, s.stressLevel ≤ 70 → 30 ≤ s.energyLevel → 40 ≤ s.happinessLevel →
      newDay s 5 = some { s with
        day := intIncr s.day
        message := "Day " ++ toString (intIncr s.day) ++ ": " ++
          "A calm day. Nothing major happened." }) ∧
    (¬ (ruleOrderState.stressLevel ≤ 70 ∧ 30 ≤ ruleOrderState.energyLevel ∧
          40 ≤ ruleOrderState.happinessLevel) ∧
      ∃ s', newDay ruleOrderState 5 = some s' ∧
        s'.energyLevel ≠ ruleOrderState.energyLevel ∧
        s'.happinessLevel ≠ ruleOrderState.happinessLevel ∧
        s'.stressLevel ≠ ruleOrderState.stressLevel) := by
  refine ⟨?_, by decide, _, rfl, by decide, by decide, by decide⟩
  intro s h1 h2 h3
  have he : events[5]? = some ⟨"No Major Event", noMajorEventEffect⟩ := rfl
  have g1 : ¬ s.stressLevel > 70 := by omega
  have g2 : ¬ s.energyLevel < 30 := by omega
  have g3 : ¬ s.happinessLevel < 40 := by omega
  simp only [newDay, he, noMajorEventEffect, g1, g2, g3, if_false]

theorem calm_day_frame_witness :
    construct.stressLevel ≤ 70 ∧ 30 ≤ construct.energyLevel ∧ 40 ≤ construct.happinessLevel ∧
    newDay construct 5 = some { construct with
      day := intIncr construct.day
      message := "Day " ++ toString (intIncr construct.day) ++ ": " ++
        "A calm day. Nothing major happened." } :=
  ⟨by decide, by decide, by decide,
    calm_day_frame.1 construct (by decide) (by decide) (by decide)⟩

/-! ## Activities commute -/

theorem countsIncr_cons_lt {key k : String} (h : key < k) (v : Int)
    (rest : List (String × Int)) :
    countsIncr key ((k, v) :: rest) = (key, intIncr 0) :: (k, v) :: rest := by
  simp only [countsIncr, if_pos h]

theorem countsIncr_cons_eq (k : String) (v : Int) (rest : List (String × Int)) :
    countsIncr k ((k, v) :: rest) = (k, intIncr v) :: rest := by
  simp only [countsIncr, if_neg (lt_irrefl k), if_true]

theorem countsIncr_cons_gt {key k : String} (h : k < key) (v : Int)
    (rest : List (String × Int)) :
    countsIncr key ((k, v) :: rest) = (k, v) :: countsIncr key rest := by
  simp only [countsIncr, if_neg (not_lt_of_gt h), if_neg (ne_of_gt h)]

theorem countsIncr_comm (a b : String) (m : List (String × Int)) :
    countsIncr a (countsIncr b m) = countsIncr b (countsIncr a m) := by
  induction m with
  | nil =>
    rcases lt_trichotomy a b with hab | hab | hab
    · simp only [countsIncr, if_pos hab, if_neg (not_lt_of_gt hab), if_neg (ne_of_gt hab)]
    · subst hab; rfl
    · simp only [countsIncr, if_pos hab, if_neg (not_lt_of_gt hab), if_neg (ne_of_gt hab)]
  | cons q rest ih =>
    obtain ⟨k, v⟩ := q
    rcases lt_trichotomy a k with ha | ha | ha <;> rcases lt_trichotomy b k with hb | hb | hb
    · rcases lt_trichotomy a b with hab | hab | hab
      · simp only [countsIncr_cons_lt ha, countsIncr_cons_lt hb, countsIncr_cons_lt hab,
          countsIncr_cons_gt hab]
      · subst hab; rfl
      · simp only [countsIncr_cons_lt ha, countsIncr_cons_lt hb, countsIncr_cons_lt hab,
          countsIncr_cons_gt hab]
    · subst hb
      simp only [countsIncr_cons_lt ha, countsIncr_cons_eq, countsIncr_cons_gt ha]
    · simp only [countsIncr_cons_lt ha, countsIncr_cons_gt hb,
        countsIncr_cons_gt (lt_trans ha hb)]
    · subst ha
      simp only [countsIncr_cons_lt hb, countsIncr_cons_eq, countsIncr_cons_gt hb]
    · subst ha; subst hb; rfl
    · subst ha
      simp only [countsIncr_cons_eq, countsIncr_cons_gt hb]
    · simp only [countsIncr_cons_lt hb, countsIncr_cons_gt ha,
        countsIncr_cons_gt (lt_trans hb ha)]
    · subst hb
      simp only [countsIncr_cons_eq, countsIncr_cons_gt ha]
    · simp only [countsIncr_cons_gt ha, countsIncr_cons_gt hb, ih]

/-- C17: from every state with metrics in [0,100] and for any two of the five
activities A and B, A then B yields the same day, energy, happiness, stress and
activityCounts as B then A (lastMessage may differ); each metric is then
clamp(old + sum of the two deltas of the activity table). -/
theorem activities_commute (a b : Activity) (s : HealthSimulator) (h : InRange s) :
    ((b.perform (a.perform s)).day = (a.perform (b.perform s)).day ∧
     (b.perform (a.perform s)).energyLevel = (a.perform (b.perform s)).energyLevel ∧
     (b.perform (a.perform s)).happinessLevel = (a.perform (b.perform s)).happinessLevel ∧
     (b.perform (a.perform s)).stressLevel = (a.perform (b.perform s)).stressLevel ∧
     (b.perform (a.perform s)).activityCounts = (a.perform (b.perform s)).activityCounts) ∧
    ((b.perform (a.perform s)).energyLevel =
        clamp (s.energyLevel + ((activityTable a).energy + (activityTable b).energy)) ∧
     (b.perform (a.perform s)).happinessLevel =
        clamp (s.happinessLevel + ((activityTable a).happiness + (activityTable b).happiness)) ∧
     (b.perform (a.perform s)).stressLevel =
        clamp (s.stressLevel + ((activityTable a).stress + (activityTable b).stress))) := by
  obtain ⟨⟨e0, e1⟩, ⟨h0, h1⟩, ⟨s0, s1⟩⟩ := h
  refine ⟨⟨?_, ?_, ?_, ?_, ?_⟩, ?_, ?_, ?_⟩
  · rw [perform_day, perform_day, perform_day, perform_day]
  · cases a <;> cases b <;>
      simp only [Activity.perform, exercise, meditate, eatHealthy, relax, sleep, clamp] <;>
      omega
  · cases a <;> cases b <;>
      simp only [Activity.perform, exercise, meditate, eatHealthy, relax, sleep, clamp] <;>
      omega
  · cases a <;> cases b <;>
      simp only [Activity.perform, exercise, meditate, eatHealthy, relax, sleep, clamp] <;>
      omega
  · rw [perform_activityCounts, perform_activityCounts, perform_activityCounts,
      perform_activityCounts]
    exact countsIncr_comm _ _ _
  · cases a <;> cases b <;>
      simp only [Activity.perform, exercise, meditate, eatHealthy, relax, sleep, clamp,
        activityTable] <;>
      omega
  · cases a <;> cases b <;>
      simp only [Activity.perform, exercise, meditate, eatHealthy, relax, sleep, clamp,
        activityTable] <;>
      omega
  · cases a <;> cases b <;>
      simp only [Activity.perform, exercise, meditate, eatHealthy, relax, sleep, clamp,
        activityTable] <;>
      omega

theorem activities_commute_witness :
    InRange nearBoundaryState ∧
    (Activity.relax.perform (Activity.sleep.perform nearBoundaryState)).energyLevel =
      (Activity.sleep.perform (Activity.relax.perform nearBoundaryState)).energyLevel ∧
    (Activity.relax.perform (Activity.sleep.perform nearBoundaryState)).activityCounts =
      (Activity.sleep.perform (Activity.relax.perform nearBoundaryState)).activityCounts :=
  have h := activities_commute .sleep .relax nearBoundaryState (by decide)
  ⟨by decide, h.1.2.1, h.1.2.2.2.2⟩

/-! ## Keys and counts of reachable maps -/

theorem mem_countsIncr_cases (key : String) (m : List (String × Int)) (p : String × Int)
    (hp : p ∈ countsIncr key m) :
    p ∈ m ∨ p = (key, intIncr 0) ∨ ∃ v, (key, v) ∈ m ∧ p = (key, intIncr v) := by
  induction m with
  | nil =>
    simp only [countsIncr, List.mem_singleton] at hp
    exact Or.inr (Or.inl hp)
  | cons q rest ih =>
    obtain ⟨k, v⟩ := q
    simp only [countsIncr] at hp
    split_ifs at hp with h1 h2
    · rcases List.mem_cons.1 hp with e | e
      · exact Or.inr (Or.inl e)
      · exact Or.inl e
    · rcases List.mem_cons.1 hp with e | e
      · exact Or.inr (Or.inr ⟨v, by rw [h2]; exact List.mem_cons_self _ _, by rw [e, h2]⟩)
      · exact Or.inl (List.mem_cons_of_mem _ e)
    · rcases List.mem_cons.1 hp with e | e
      · exact Or.inl (by rw [e]; exact List.mem_cons_self _ _)
      · rcases ih e with h | h | ⟨w, hw, h⟩
        · exact Or.inl (List.mem_cons_of_mem _ h)
        · exact Or.inr (Or.inl h)
        · exact Or.inr (Or.inr ⟨w, List.mem_cons_of_mem _ hw, h⟩)

theorem key_mem_activityKeys (a : Activity) : a.key ∈ activityKeys := by
  cases a <;> decide

theorem sinceLastReset_concat_ne (xs : List Op) (x : Op) (hx : x ≠ Op.reset) :
    sinceLastReset (xs ++ [x]) = sinceLastReset xs ++ [x] := by
  rw [sinceLastReset_concat, if_neg hx]

/-- The invariant of the counts map along a run from the constructor: well formed, and
every entry is the name of an activity with a count between 1 and the number of calls
of that activity since the last reset, as long as these numbers stay below 2^31. -/
theorem runOps_counts_named (ops : List Op) (hops : ∀ op ∈ ops, op.IndexOk)
    (hbound : ∀ a : Activity, (sinceLastReset ops).count (Op.activity a) < 2147483648) :
    ∃ s, runOps ops construct = some s ∧ CountsWF s.activityCounts ∧
      ∀ p ∈ s.activityCounts, ∃ a : Activity, p.1 = a.key ∧ 1 ≤ p.2 ∧
        p.2 ≤ ((sinceLastReset ops).count (Op.activity a) : Nat) := by
  induction ops using List.reverseRecOn with
  | nil =>
    exact ⟨construct, rfl, List.Pairwise.nil, fun p hp => absurd hp (List.not_mem_nil p)⟩
  | append_singleton xs x ih =>
    have hxs : ∀ o ∈ xs, o.IndexOk := fun o ho => hops o (List.mem_append_left _ ho)
    have hx : x.IndexOk := hops x (List.mem_append_right _ (List.mem_singleton_self x))
    cases x with
    | reset =>
      obtain ⟨s, hs, _⟩ := runOps_inRange xs construct hxs (by decide)
      exact ⟨reset s, by rw [runOps_append, hs]; rfl, List.Pairwise.nil,
        fun p hp => absurd hp (List.not_mem_nil p)⟩
    | newDay i =>
      have hsl := sinceLastReset_concat_ne xs (Op.newDay i) (by simp)
      have hcount : ∀ a : Activity, (sinceLastReset (xs ++ [Op.newDay i])).count
          (Op.activity a) = (sinceLastReset xs).count (Op.activity a) := by
        intro a; rw [hsl]; simp [List.count_append]
      obtain ⟨s, hs, hwf, hk⟩ := ih hxs (fun a => by rw [← hcount a]; exact hbound a)
      obtain ⟨s', h1, h2⟩ := newDay_activityCounts s i hx
      refine ⟨s', by rw [runOps_append, hs]; simp [runOps, Op.apply, h1], ?_, ?_⟩
      · rw [h2]; exact hwf
      · rw [h2]
        intro p hp
        obtain ⟨a, e1, e2, e3⟩ := hk p hp
        exact ⟨a, e1, e2, by rw [hcount a]; exact e3⟩
    | activity b =>
      have hsl := sinceLastReset_concat_ne xs (Op.activity b) (by simp)
      have hcount : ∀ a : Activity, (sinceLastReset (xs ++ [Op.activity b])).count
          (Op.activity a) =
            (sinceLastReset xs).count (Op.activity a) + (if b = a then 1 else 0) := by
        intro a; rw [hsl]
        by_cases hba : b = a
        · subst hba; simp [List.count_append]
        · have : ¬ Op.activity b = Op.activity a := fun e => hba (Op.activity.inj e)
          have hb0 : (Op.activity b == Op.activity a) = false := by simpa using this
          simp [List.count_append, List.count_cons, hba, hb0]
      obtain ⟨s, hs, hwf, hk⟩ := ih hxs (fun a => by
        have h1 := hbound a; rw [hcount a] at h1; omega)
      refine ⟨b.perform s, by rw [runOps_append, hs]; rfl, ?_, ?_⟩
      · rw [perform_activityCounts]; exact countsIncr_wf _ _ hwf
      · rw [perform_activityCounts]
        intro p hp
        have hb := hbound b
        rw [hcount b, if_pos rfl] at hb
        rcases mem_countsIncr_cases _ _ p hp with e | e | ⟨v, hv, e⟩
        · obtain ⟨a, e1, e2, e3⟩ := hk p e
          exact ⟨a, e1, e2, by rw [hcount a]; push_cast; split_ifs <;> omega⟩
        · refine ⟨b, by rw [e], by rw [e]; exact (by decide : (1 : Int) ≤ intIncr 0), ?_⟩
          rw [e, hcount b, if_pos rfl]
          show intIncr 0 ≤ _
          rw [intIncr_zero]; push_cast; omega
        · obtain ⟨a, e1, e2, e3⟩ := hk _ hv
          have hab : b = a := key_injective b a e1
          subst hab
          have hv1 : (1 : Int) ≤ v := e2
          have hv2 : v ≤ ((sinceLastReset xs).count (Op.activity b) : Nat) := e3
          have hinc : intIncr v = v + 1 := intIncr_of_lt v (by omega) (by omega)
          refine ⟨b, by rw [e], by rw [e]; show 1 ≤ intIncr v; omega, ?_⟩
          rw [e, hcount b, if_pos rfl]
          show intIncr v ≤ _
          rw [hinc]; push_cast; omega

/-- C18 (amended): every sequence of operations (event index 0..5) in which each
activity is called fewer than 2^31 = 2147483648 times since construction or since the
most recent reset runs to completion from the freshly constructed state, and in the
state it reaches every key of activityCounts is one of "Exercise", "Meditate",
"Eat Healthy", "Relax", "Sleep" and every stored count is >= 1; hence whenever the map
is non-empty the activity report names an entry of the map, never the placeholder
"None", and never reports a maximum count of 0. -/
theorem reachable_counts_named (ops : List Op) (hops : ∀ op ∈ ops, op.IndexOk)
    (hbound : ∀ a : Activity, (sinceLastReset ops).count (Op.activity a) < 2147483648) :
    ∃ s, runOps ops construct = some s ∧
      (∀ p ∈ s.activityCounts, p.1 ∈ activityKeys ∧ 1 ≤ p.2) ∧
      (s.activityCounts ≠ [] →
        ∃ name cnt, (name, cnt) ∈ s.activityCounts ∧
          displayActivityStats s = reportNaming s name cnt ∧
          name ≠ "None" ∧ cnt ≠ 0) := by
  obtain ⟨s, h1, hwf, hk0⟩ := runOps_counts_named ops hops hbound
  have hk : ∀ p ∈ s.activityCounts, p.1 ∈ activityKeys ∧ 1 ≤ p.2 := by
    intro p hp
    obtain ⟨a, e1, e2, _⟩ := hk0 p hp
    exact ⟨by rw [e1]; exact key_mem_activityKeys a, e2⟩
  refine ⟨s, h1, hk, ?_⟩
  intro hne
  obtain ⟨p0, hp0⟩ := List.exists_mem_of_ne_nil _ hne
  obtain ⟨name, cnt, hmem, _, _, hd⟩ :=
    reportsFirstMax_of_positive s hwf ⟨p0, hp0, by have := (hk p0 hp0).2; omega⟩
  refine ⟨name, cnt, hmem, hd, ?_, ?_⟩
  · intro e
    have hin : name ∈ activityKeys := (hk _ hmem).1
    rw [e] at hin
    exact absurd hin (by decide)
  · have : 1 ≤ cnt := (hk _ hmem).2
    omega

theorem reachable_counts_named_witness :
    (∀ op ∈ [Op.activity .sleep, Op.newDay 2, Op.activity .exercise, Op.activity .sleep],
        op.IndexOk) ∧
    (∀ a : Activity, (sinceLastReset [Op.activity .sleep, Op.newDay 2,
        Op.activity .exercise, Op.activity .sleep]).count (Op.activity a) < 2147483648) ∧
    ∃ s, runOps [Op.activity .sleep, Op.newDay 2, Op.activity .exercise,
        Op.activity .sleep] construct = some s ∧
      (∀ p ∈ s.activityCounts, p.1 ∈ activityKeys ∧ 1 ≤ p.2) ∧
      (s.activityCounts ≠ [] →
        ∃ name cnt, (name, cnt) ∈ s.activityCounts ∧
          displayActivityStats s = reportNaming s name cnt ∧
          name ≠ "None" ∧ cnt ≠ 0) :=
  ⟨by decide, fun a => by cases a <;> decide,
    reachable_counts_named _ (by decide) (fun a => by cases a <;> decide)⟩

/-! ## Overflow of the `int` counters -/

theorem sinceLastReset_replicate_newDay (n i : Nat) :
    sinceLastReset (List.replicate n (Op.newDay i)) = List.replicate n (Op.newDay i) := by
  induction n with
  | zero => rfl
  | succ n ih =>
    rw [List.replicate_succ', sinceLastReset_concat_ne _ _ (by simp), ih]

theorem dayAdvances_replicate_newDay (n i : Nat) :
    dayAdvances (List.replicate n (Op.newDay i)) = n := by
  induction n with
  | zero => rfl
  | succ n ih => rw [List.replicate_succ', dayAdvances_concat, ih]

/-- The day counter after `n` day-advances from the constructor. -/
theorem run_newDays (n : Nat) :
    ∃ s, runOps (List.replicate n (Op.newDay 5)) construct = some s ∧
      s.day = wrapInt (1 + (n : Nat)) := by
  obtain ⟨s, h1, h2⟩ := runOps_day (List.replicate n (Op.newDay 5))
    (fun op hop => by rw [List.eq_of_mem_replicate hop]; exact (by decide : (5 : Nat) ≤ 5))
  rw [sinceLastReset_replicate_newDay, dayAdvances_replicate_newDay] at h2
  exact ⟨s, h1, h2⟩

/-- The counts map after `n` further calls of exercise on a map that holds only
"Exercise". -/
theorem run_exercises (n : Nat) (s : HealthSimulator) (v : Int)
    (hs : s.activityCounts = [("Exercise", v)]) :
    ∃ s', runOps (List.replicate n (Op.activity Activity.exercise)) s = some s' ∧
      s'.activityCounts = [("Exercise", if n = 0 then v else wrapInt (v + (n : Nat)))] := by
  induction n generalizing s v with
  | zero => exact ⟨s, rfl, by rw [hs]; rfl⟩
  | succ n ih =>
    have h1 : (exercise s).activityCounts = [("Exercise", intIncr v)] := by
      show countsIncr "Exercise" s.activityCounts = _
      rw [hs, countsIncr_cons_eq]
    obtain ⟨s', g1, g2⟩ := ih (exercise s) (intIncr v) h1
    refine ⟨s', ?_, ?_⟩
    · rw [List.replicate_succ]; exact g1
    · rw [g2, if_neg (Nat.succ_ne_zero n)]
      by_cases hn : n = 0
      · subst hn; rfl
      · rw [if_neg hn, wrapInt_intIncr_add]
        push_cast
        rfl

/-- The counts map after `m + 1` calls of exercise on an empty map. -/
theorem run_exercises_from_empty (m : Nat) (s : HealthSimulator) (hs : s.activityCounts = []) :
    ∃ s', runOps (List.replicate (m + 1) (Op.activity Activity.exercise)) s = some s' ∧
      s'.activityCounts = [("Exercise", wrapInt ((m : Nat) + 1))] := by
  have h1 : (exercise s).activityCounts = [("Exercise", intIncr 0)] := by
    show countsIncr "Exercise" s.activityCounts = _
    rw [hs]; rfl
  obtain ⟨s', g1, g2⟩ := run_exercises m (exercise s) (intIncr 0) h1
  refine ⟨s', by rw [List.replicate_succ]; exact g1, ?_⟩
  rw [g2]
  by_cases hm : m = 0
  · subst hm; rfl
  · rw [if_neg hm, wrapInt_intIncr_add, Int.zero_add]

/-- After 2^31 calls of exercise from the constructor the map holds the single entry
"Exercise" with the wrapped count -2147483648. -/
theorem run_overflowExerciseOps :
    ∃ s, runOps overflowExerciseOps construct = some s ∧
      s.activityCounts = [("Exercise", -2147483648)] := by
  obtain ⟨s, h1, h2⟩ := run_exercises_from_empty 2147483647 construct rfl
  exact ⟨s, h1, by rw [h2]; decide⟩

theorem indexOk_overflowExerciseOps :
    ∀ op ∈ overflowExerciseOps, op ≠ Op.reset ∧ op.IndexOk := by
  intro op hop
  rw [List.eq_of_mem_replicate hop]
  exact ⟨by simp, trivial⟩

theorem display_overflowed (s : HealthSimulator)
    (hs : s.activityCounts = [("Exercise", -2147483648)]) :
    displayActivityStats s = reportNaming s "None" 0 ∧
    displayActivityStats s ≠ reportNaming s "Exercise" (-2147483648) := by
  unfold displayActivityStats reportNaming
  rw [hs]
  decide

/-- C8 as stated fails at day = INT_MAX: after 2147483646 day-advances from the
constructor day is 2147483647, and the next newDay leaves day = -2147483648, not
day + 1. -/
theorem newDay_increments_day_counterexample :
    ∃ s, runOps maxDayOps construct = some s ∧ s.day = 2147483647 ∧
      ∃ s', newDay s 5 = some s' ∧ s'.day = -2147483648 ∧ s'.day ≠ s.day + 1 := by
  obtain ⟨s, h1, h2⟩ := run_newDays 2147483646
  have hd : s.day = 2147483647 := by rw [h2]; decide
  obtain ⟨s', g1, g2⟩ := newDay_day s 5 (by decide)
  have hd' : s'.day = -2147483648 := by rw [g2, hd]; exact intIncr_max
  exact ⟨s, h1, hd, s', g1, hd', by rw [hd', hd]; decide⟩

/-- C12 as stated fails: after 2147483647 day-advances from the constructor, with no
reset, day is -2147483648, which is neither 1 plus the number of day-advances nor
>= 1. -/
theorem day_counts_advances_counterexample :
    (∀ op ∈ overflowDayOps, op.IndexOk) ∧
    dayAdvances (sinceLastReset overflowDayOps) = 2147483647 ∧
    ∃ s, runOps overflowDayOps construct = some s ∧ s.day = -2147483648 ∧
      s.day ≠ 1 + (dayAdvances (sinceLastReset overflowDayOps) : Nat) ∧ ¬ (1 ≤ s.day) := by
  have hadv : dayAdvances (sinceLastReset overflowDayOps) = 2147483647 := by
    unfold overflowDayOps
    rw [sinceLastReset_replicate_newDay, dayAdvances_replicate_newDay]
  refine ⟨fun op hop => ?_, hadv, ?_⟩
  · rw [List.eq_of_mem_replicate hop]; exact (by decide : (5 : Nat) ≤ 5)
  · obtain ⟨s, h1, h2⟩ := run_newDays 2147483647
    have hd : s.day = -2147483648 := by rw [h2]; decide
    exact ⟨s, h1, hd, by rw [hd, hadv]; decide, by rw [hd]; decide⟩

/-- C5 as stated fails: after 2^31 = 2147483648 calls of exercise on the fresh state
the count recorded under "Exercise" is -2147483648, not the number of calls. -/
theorem counts_equal_occurrences_counterexample :
    construct.activityCounts = [] ∧
    (∀ op ∈ overflowExerciseOps, op ≠ Op.reset ∧ op.IndexOk) ∧
    overflowExerciseOps.count (Op.activity Activity.exercise) = 2147483648 ∧
    ∃ s, runOps overflowExerciseOps construct = some s ∧
      countsFind "Exercise" s.activityCounts = some (-2147483648) ∧
      countsFind "Exercise" s.activityCounts ≠
        some ((overflowExerciseOps.count (Op.activity Activity.exercise) : Nat) : Int) := by
  have hc : overflowExerciseOps.count (Op.activity Activity.exercise) = 2147483648 :=
    List.count_replicate_self _ _
  obtain ⟨s, h1, h2⟩ := run_overflowExerciseOps
  have hf : countsFind "Exercise" s.activityCounts = some (-2147483648) := by
    rw [h2]; rfl
  exact ⟨rfl, indexOk_overflowExerciseOps, hc, s, h1, hf, by rw [hf, hc]; decide⟩

/-- C18 as stated fails: after 2^31 = 2147483648 calls of exercise from the constructor
the map is non-empty, its count is -2147483648 < 1, and the report names the
placeholder "None" with a maximum count of 0. -/
theorem reachable_counts_named_counterexample :
    (∀ op ∈ overflowExerciseOps, op.IndexOk) ∧
    ∃ s, runOps overflowExerciseOps construct = some s ∧
      s.activityCounts ≠ [] ∧
      (∃ p ∈ s.activityCounts, ¬ (1 ≤ p.2)) ∧
      displayActivityStats s = reportNaming s "None" 0 := by
  obtain ⟨s, h1, h2⟩ := run_overflowExerciseOps
  refine ⟨fun op hop => (indexOk_overflowExerciseOps op hop).2, s, h1, ?_, ?_,
    (display_overflowed s h2).1⟩
  · rw [h2]; exact List.cons_ne_nil _ _
  · exact ⟨("Exercise", -2147483648), by rw [h2]; exact List.mem_cons_self _ _, by decide⟩

/-! ## The most frequent activity -/

/-- C10 (amended): for every state whose activityCounts holds at least one positive
count, in particular for every non-empty map reached from the fresh state by calls in
which each activity occurs fewer than 2^31 times since the most recent reset, the
activity report names as most frequent the first name, in ascending name order, whose
count equals the maximum count in the map, and reports that maximum as its count; for
an empty map it prints that no activities are recorded and names no activity.  After
one Exercise and then one Meditate from the fresh state the report names "Exercise"
with count 1. -/
theorem report_names_first_max :
    (∀ s : HealthSimulator, CountsWF s.activityCounts →
      (∃ p ∈ s.activityCounts, 0 < p.2) → ReportsFirstMax s) ∧
    (∀ ops : List Op, (∀ op ∈ ops, op.IndexOk) →
      (∀ a : Activity, (sinceLastReset ops).count (Op.activity a) < 2147483648) →
      ∃ s, runOps ops construct = some s ∧ (s.activityCounts ≠ [] → ReportsFirstMax s)) ∧
    (∀ s : HealthSimulator, s.activityCounts = [] →
      displayActivityStats s =
        "\n--- Activity Log ---\nNo activities recorded yet.\n--------------------\n") ∧
    displayActivityStats (meditate (exercise construct)) =
      reportNaming (meditate (exercise construct)) "Exercise" 1 := by
  refine ⟨reportsFirstMax_of_positive, ?_, display_of_empty, by decide⟩
  intro ops hops hbound
  obtain ⟨s, h1, hwf, hk⟩ := runOps_counts_named ops hops hbound
  refine ⟨s, h1, fun hne => ?_⟩
  obtain ⟨p0, hp0⟩ := List.exists_mem_of_ne_nil _ hne
  obtain ⟨_, _, e2, _⟩ := hk p0 hp0
  exact reportsFirstMax_of_positive s hwf ⟨p0, hp0, by omega⟩

theorem report_names_first_max_witness :
    CountsWF (meditate (exercise construct)).activityCounts ∧
    (∃ p ∈ (meditate (exercise construct)).activityCounts, 0 < p.2) ∧
    ReportsFirstMax (meditate (exercise construct)) :=
  have hwf : CountsWF (meditate (exercise construct)).activityCounts := by
    unfold CountsWF; decide
  have hpos : ∃ p ∈ (meditate (exercise construct)).activityCounts, 0 < p.2 :=
    ⟨("Exercise", 1), by decide, by decide⟩
  ⟨hwf, hpos, report_names_first_max.1 _ hwf hpos⟩

/-- C10 as stated fails on a reachable state: after 2^31 = 2147483648 calls of exercise
from the constructor the map is non-empty and well formed and holds "Exercise" with the
wrapped count -2147483648; the first name whose count equals the maximum is
"Exercise", yet the report names the placeholder "None" with count 0. -/
theorem report_names_first_max_counterexample :
    ∃ s, runOps overflowExerciseOps construct = some s ∧
      CountsWF s.activityCounts ∧ s.activityCounts ≠ [] ∧
      displayActivityStats s = reportNaming s "None" 0 ∧
      ¬ ReportsFirstMax s := by
  obtain ⟨s, h1, h2⟩ := run_overflowExerciseOps
  refine ⟨s, h1, ?_, ?_, (display_overflowed s h2).1, ?_⟩
  · rw [h2]; unfold CountsWF; exact List.pairwise_singleton _ _
  · rw [h2]; exact List.cons_ne_nil _ _
  · rintro ⟨name, cnt, hmem, _, _, hd⟩
    rw [h2, List.mem_singleton] at hmem
    obtain ⟨rfl, rfl⟩ := Prod.mk.inj hmem
    exact (display_overflowed s h2).2 hd

end HealthSim
